import Mathlib

/-!
Verification development for a legal-document RAG system
(`src/ingestion/document_structure.py`, `src/ingestion/pdf_parser.py`,
`src/retrieval/query_analyzer.py`, `src/retrieval/exact_retriever.py`,
`src/retrieval/hybrid_retriever.py`).

The Python code is shallowly embedded: pure functions become Lean
functions, regular-expression searches are executed by a small
backtracking engine whose alternative order mirrors CPython's `re`
module (leftmost match, earlier alternatives and longer greedy
repetitions preferred), exceptions become `Except`, and external
collaborators (the FAISS vector store, the embedding model and the
reranker) are abstract parameters.
-/

namespace RagSpec

/-! ## Python string primitives -/

/-- Python `str.lower()` (ASCII-relevant part). -/
def pyLower (s : String) : String := String.mk (s.data.map Char.toLower)

/-- Python `str.upper()` (ASCII-relevant part). -/
def pyUpper (s : String) : String := String.mk (s.data.map Char.toUpper)

/-- Python's `\s` class / `str.strip` default set (ASCII part:
space, tab, newline, carriage return, vertical tab, form feed). -/
def pyIsSpace (c : Char) : Bool :=
  c = ' ' || c = '\t' || c = '\n' || c = '\r' || c = '\x0b' || c = '\x0c'

/-- Python `str.strip()`. -/
def pyStrip (s : String) : String :=
  String.mk (((s.data.dropWhile pyIsSpace).reverse.dropWhile pyIsSpace).reverse)

/-- Auxiliary for substring search. -/
def isSubstrAux (needle : List Char) : List Char → Bool
  | [] => needle.isEmpty
  | c :: t => if needle.isPrefixOf (c :: t) then true else isSubstrAux needle t

/-- Python `needle in hay` on strings (substring containment). -/
def strContains (hay needle : String) : Bool :=
  isSubstrAux needle.data hay.data

/-- Python truthiness of an optional string (`None` and `""` are falsy). -/
def pyTruthy : Option String → Bool
  | none => false
  | some s => !s.data.isEmpty

/-- Python `str(x)` for an optional string; `str(None) = "None"`. -/
def pyStr : Option String → String
  | none => "None"
  | some s => s

/-- Digits-only string to `Nat` (helper for `pyInt`). -/
def digitsToNat (ds : List Char) : Option Nat :=
  if ds = [] then none
  else if ds.all Char.isDigit then
    some (ds.foldl (fun a c => a * 10 + (c.toNat - '0'.toNat)) 0)
  else none

/-- Python `int(s)` on the strings this code feeds it (surrounding
whitespace, optional sign, decimal digits); `none` models `ValueError`. -/
def pyInt (s : String) : Option Int :=
  match (s.data.dropWhile pyIsSpace).reverse.dropWhile pyIsSpace |>.reverse with
  | '-' :: ds => (digitsToNat ds).map (fun n => -(n : Int))
  | '+' :: ds => (digitsToNat ds).map (fun n => (n : Int))
  | ds => (digitsToNat ds).map (fun n => (n : Int))

/-- Python `min` over a nonempty int list, presented as head + tail. -/
def pyMinInt (a : Int) (l : List Int) : Int := l.foldl min a

/-- Python `list(set(xs))` for strings: CPython's iteration order over a
set is implementation-defined; it is modelled as first-occurrence
deduplication, and no theorem below depends on the chosen order. -/
def pySetAux (seen : List String) : List String → List String
  | [] => []
  | x :: xs => if x ∈ seen then pySetAux seen xs else x :: pySetAux (x :: seen) xs

def pySetList (l : List String) : List String := pySetAux [] l

/-! ## A small backtracking regex engine

Alternatives are produced in CPython `re` preference order: at each
position a literal/class consumes deterministically, `alt` tries its
left branch first, and greedy `star` prefers one more iteration over
stopping.  A `star` iteration that consumes nothing is cut off, which
matches CPython's empty-match rule; every starred body in the patterns
below consumes at least one character anyway.  `group` records the
consumed substring; the fixed patterns used here have no nested groups,
so capture lists line up with Python's `group(1)`, `group(2)`, ... -/

inductive RE where
  | eps : RE
  | cls (p : Char → Bool) : RE
  | lit (s : String) : RE
  | seq (a b : RE) : RE
  | alt (a b : RE) : RE
  | star (r : RE) : RE
  | group (r : RE) : RE
  | nla (p : Char → Bool) : RE

/-- Case-insensitive literal match: consume `pat` from the front of `s`. -/
def litMatch : List Char → List Char → Option (List Char)
  | [], s => some s
  | _ :: _, [] => none
  | p :: ps, c :: cs => if c.toLower = p.toLower then litMatch ps cs else none

/-- Greedy iteration of a body matcher `f`; results are (remaining
input, captures) in preference order, more iterations first.  The
`fuel` argument only forces structural termination: every iteration
must consume at least one character (the `length` guard, CPython's
empty-match rule), so running with `fuel = s.length + 1` never hits
the exhaustion base case before the input does. -/
def starRun (f : List Char → List (List Char × List String)) :
    Nat → List Char → List (List Char × List String)
  | 0, s => [(s, [])]
  | fuel + 1, s =>
    ((f s).map (fun p =>
      if p.1.length < s.length then
        (starRun f fuel p.1).map (fun q => (q.1, p.2 ++ q.2))
      else [])).flatten ++ [(s, [])]

/-- Run a regex at the start of the input; each result is the remaining
suffix plus the capture list, in CPython preference order. -/
def runRE : RE → List Char → List (List Char × List String)
  | .eps => fun s => [(s, [])]
  | .cls p => fun s =>
      match s with
      | [] => []
      | c :: cs => if p c then [(cs, [])] else []
  | .lit t => fun s =>
      match litMatch t.data s with
      | some rest => [(rest, [])]
      | none => []
  | .seq a b => fun s =>
      ((runRE a s).map (fun p =>
        (runRE b p.1).map (fun q => (q.1, p.2 ++ q.2)))).flatten
  | .alt a b => fun s => runRE a s ++ runRE b s
  | .star r => fun s => starRun (runRE r) (s.length + 1) s
  | .group r => fun s =>
      (runRE r s).map (fun p =>
        (p.1, String.mk (s.take (s.length - p.1.length)) :: p.2))
  | .nla p => fun s =>
      match s with
      | [] => [(s, [])]
      | c :: _ => if p c then [] else [(s, [])]

/-- `re.search` scan: leftmost matching position, first alternative there. -/
def searchAux (re : RE) : List Char → Option (List String)
  | [] =>
      match runRE re [] with
      | (_, caps) :: _ => some caps
      | [] => none
  | c :: t =>
      match runRE re (c :: t) with
      | (_, caps) :: _ => some caps
      | [] => searchAux re t

def reSearch (re : RE) (s : String) : Option (List String) :=
  searchAux re s.data

/-- `X+` as `X X*`. -/
def rePlus (r : RE) : RE := .seq r (.star r)

def seqs : List RE → RE
  | [] => .eps
  | [r] => r
  | r :: rest => .seq r (seqs rest)

def alts : List RE → RE
  | [] => .cls (fun _ => false)
  | [r] => r
  | r :: rest => .alt r (alts rest)

/-! ## Character classes used by `QueryAnalyzer` patterns -/

def isDigitC (c : Char) : Bool := c.isDigit

def isSpaceDash (c : Char) : Bool := pyIsSpace c || c = '-'

def isSpaceComma (c : Char) : Bool := pyIsSpace c || c = ','

/-- `[IVX]` under `re.IGNORECASE`. -/
def isRomanC (c : Char) : Bool :=
  c.toUpper = 'I' || c.toUpper = 'V' || c.toUpper = 'X'

/-- `[a-z]` under `re.IGNORECASE`. -/
def isLetterAZ (c : Char) : Bool :=
  'a' ≤ c.toLower && c.toLower ≤ 'z'

/-- `\d+`. -/
def digitsRE : RE := rePlus (.cls isDigitC)

/-! ## `QueryAnalyzer` regex patterns (`query_analyzer.py`, `__init__`),
all compiled with `re.IGNORECASE`. -/

/-- `(?:chapter|chap)[\s\-]*((?:[IVX]+|\d+))[\s,]+(?:section|sec)[\s\-]*(\d+)` -/
def chapterSectionRE : RE :=
  seqs [.alt (.lit "chapter") (.lit "chap"), .star (.cls isSpaceDash),
        .group (.alt (rePlus (.cls isRomanC)) digitsRE),
        rePlus (.cls isSpaceComma),
        .alt (.lit "section") (.lit "sec"), .star (.cls isSpaceDash),
        .group digitsRE]

/-- `(?:section|sec)[\s\-]*(\d+)` -/
def sectionRE : RE :=
  seqs [.alt (.lit "section") (.lit "sec"), .star (.cls isSpaceDash),
        .group digitsRE]

/-- `(?:chapter|chap)[\s\-]*((?:[IVX]+|\d+))` -/
def chapterRE : RE :=
  seqs [.alt (.lit "chapter") (.lit "chap"), .star (.cls isSpaceDash),
        .group (.alt (rePlus (.cls isRomanC)) digitsRE)]

/-- `(?:recital|regulation)(?:[\s\-]*(?:point|clause|part|no|number|num|#|\.))*[\s\-]*\(*(\d+)\)*` -/
def recitalRE : RE :=
  seqs [.alt (.lit "recital") (.lit "regulation"),
        .star (.seq (.star (.cls isSpaceDash))
          (alts [.lit "point", .lit "clause", .lit "part", .lit "no",
                 .lit "number", .lit "num", .lit "#", .lit "."])),
        .star (.cls isSpaceDash),
        .star (.cls (fun c => c = '(')),
        .group digitsRE,
        .star (.cls (fun c => c = ')'))]

/-- `article\s+(\d+)\.(\d+)\.([a-z])` -/
def fullRefDotRE : RE :=
  seqs [.lit "article", rePlus (.cls pyIsSpace), .group digitsRE,
        .lit ".", .group digitsRE, .lit ".", .group (.cls isLetterAZ)]

/-- `article\s+(\d+)\s*\((\d+)\)\s*\(([a-z])\)` -/
def fullRefParenRE : RE :=
  seqs [.lit "article", rePlus (.cls pyIsSpace), .group digitsRE,
        .star (.cls pyIsSpace), .lit "(", .group digitsRE, .lit ")",
        .star (.cls pyIsSpace), .lit "(", .group (.cls isLetterAZ), .lit ")"]

/-- `article\s+(\d+)\.(\d+)` -/
def artSubDotRE : RE :=
  seqs [.lit "article", rePlus (.cls pyIsSpace), .group digitsRE,
        .lit ".", .group digitsRE]

/-- `article\s+(\d+)\s*\((\d+)\)` -/
def artSubParenRE : RE :=
  seqs [.lit "article", rePlus (.cls pyIsSpace), .group digitsRE,
        .star (.cls pyIsSpace), .lit "(", .group digitsRE, .lit ")"]

/-- `article\s+(\d+)(?![.\d(])` -/
def articleOnlyRE : RE :=
  seqs [.lit "article", rePlus (.cls pyIsSpace), .group digitsRE,
        .nla (fun c => c = '.' || c.isDigit || c = '(')]

/-- `article\s+(\d+)` (used by `_extract_article_numbers`). -/
def articleNumRE : RE :=
  seqs [.lit "article", rePlus (.cls pyIsSpace), .group digitsRE]

/-! ## `QueryType` and `QueryAnalysis` (`query_analyzer.py`) -/

inductive QueryType where
  | EXACT_REFERENCE
  | ARTICLE_LOOKUP
  | RECITAL_LOOKUP
  | SECTION_LOOKUP
  | CHAPTER_LOOKUP
  | CHAPTER_SECTION_LOOKUP
  | CONCEPTUAL
  | COMPARISON
  | GENERAL
deriving DecidableEq, Repr

/-- The `QueryAnalysis` dataclass.  `confidence` is one of the exact
decimal constants the analyzer assigns, so it is embedded as `ℚ`;
the dataclass default is `0.0`, optional fields default to `None`
and `extracted_concepts` to `[]` (via `__post_init__`). -/
structure QueryAnalysis where
  query_type : QueryType
  original_query : String
  article : Option String := none
  recital : Option String := none
  «section» : Option String := none
  chapter : Option String := none
  subsection : Option String := none
  point : Option String := none
  confidence : ℚ := 0
  extracted_concepts : List String := []
deriving DecidableEq, Repr

/-! ## `QueryAnalyzer` (`query_analyzer.py`) -/

/-- `QueryAnalyzer.conceptual_keywords`. -/
def conceptualKeywords : List String :=
  ["what is", "what are", "explain", "describe", "how does", "why", "when",
   "requirements", "rules", "provisions", "obligations", "rights", "principles",
   "definition", "tell me", "can i", "do i need"]

/-- `QueryAnalyzer.comparison_keywords`. -/
def comparisonKeywords : List String :=
  ["difference", "compare", "versus", "vs", "distinction", "similar",
   "different", "both", "either", "between"]

/-- `QueryAnalyzer._is_section_query`. -/
def isSectionQuery (queryLower : String) : Bool :=
  ["section start", "start from", "which article",
   "show section", "what is section", "display section",
   "section contain", "in section", "section has"].any
    (fun ind => strContains queryLower ind)

/-- `QueryAnalyzer._is_chapter_query`. -/
def isChapterQuery (queryLower : String) : Bool :=
  ["chapter start", "start from", "which article",
   "show chapter", "what is chapter", "display chapter",
   "chapter contain", "in chapter", "chapter has"].any
    (fun ind => strContains queryLower ind)

/-- The Roman-numeral table of `_normalize_chapter_id` (and of
`HybridRetriever._get_alternate_chapter_format`). -/
def romanToArabic : List (String × String) :=
  [("I", "1"), ("II", "2"), ("III", "3"), ("IV", "4"), ("V", "5"),
   ("VI", "6"), ("VII", "7"), ("VIII", "8"), ("IX", "9"), ("X", "10"),
   ("XI", "11")]

/-- `QueryAnalyzer._normalize_chapter_id`:
`roman_to_arabic.get(chapter_str.upper(), chapter_str)`. -/
def normalizeChapterId (chapterStr : String) : String :=
  match romanToArabic.lookup (pyUpper chapterStr) with
  | some v => v
  | none => chapterStr

/-- `_check_exact_reference`'s `lookup_phrases`. -/
def lookupPhrases : List String :=
  ["show", "display", "get", "find", "retrieve", "read"]

/-- `QueryAnalyzer._check_exact_reference`.  The patterns are tried in
source order; each wildcard arm is only reachable on `none` because a
successful search of a pattern with n groups always yields n captures. -/
def checkExactReference (q : String) : Option QueryAnalysis :=
  match reSearch fullRefDotRE q with
  | some (a :: s :: p :: _) =>
      some { query_type := .EXACT_REFERENCE, original_query := q,
             article := some a, subsection := some s, point := some p,
             confidence := 0.95 }
  | _ =>
    match reSearch fullRefParenRE q with
    | some (a :: s :: p :: _) =>
        some { query_type := .EXACT_REFERENCE, original_query := q,
               article := some a, subsection := some s, point := some p,
               confidence := 0.95 }
    | _ =>
      match reSearch artSubDotRE q with
      | some (a :: s :: _) =>
          some { query_type := .EXACT_REFERENCE, original_query := q,
                 article := some a, subsection := some s, confidence := 0.9 }
      | _ =>
        match reSearch artSubParenRE q with
        | some (a :: s :: _) =>
            some { query_type := .EXACT_REFERENCE, original_query := q,
                   article := some a, subsection := some s, confidence := 0.9 }
        | _ =>
          match reSearch articleOnlyRE q with
          | some (a :: _) =>
              let hasVerb := lookupPhrases.any
                (fun p => strContains (pyLower q) p)
              some { query_type :=
                       if hasVerb then .ARTICLE_LOOKUP else .CONCEPTUAL,
                     original_query := q, article := some a,
                     confidence := if hasVerb then 0.85 else 0.7 }
          | _ => none

/-- `re.findall` loop of `_extract_article_numbers`: non-overlapping
matches, resuming at each match's end.  As in `starRun`, the fuel only
forces structural termination: every step advances by at least one
character, so `fuel = s.length + 1` is never exhausted early. -/
def findallArticle : Nat → List Char → List String
  | 0, _ => []
  | _, [] => []
  | fuel + 1, c :: t =>
    match runRE articleNumRE (c :: t) with
    | (rest, n :: _) :: _ =>
        if rest.length < (c :: t).length then n :: findallArticle fuel rest
        else n :: findallArticle fuel t
    | _ => findallArticle fuel t

/-- `QueryAnalyzer._extract_article_numbers`:
`list(set(re.findall(r"article\s+(\d+)", query, re.IGNORECASE)))`. -/
def extractArticleNumbers (q : String) : List String :=
  pySetList (findallArticle (q.data.length + 1) q.data)

/-- `QueryAnalyzer.analyze`.  The Python `try` never fails on this code
path (string/regex operations do not raise), so the embedded function is
total; the `except`-reraise branch is modelled where the caller can
observe it (`HybridRetriever.retrieve`, below). -/
def analyze (q : String) : QueryAnalysis :=
  let ql := pyStrip (pyLower q)
  match reSearch chapterSectionRE q with
  | some (ch :: sec :: _) =>
      { query_type := .CHAPTER_SECTION_LOOKUP, original_query := q,
        chapter := some (normalizeChapterId ch), «section» := some sec,
        confidence := 0.95 }
  | _ =>
    match reSearch sectionRE q, isSectionQuery ql with
    | some (sec :: _), true =>
        { query_type := .SECTION_LOOKUP, original_query := q,
          «section» := some sec, confidence := 0.95 }
    | _, _ =>
      match reSearch chapterRE q, isChapterQuery ql with
      | some (ch :: _), true =>
          { query_type := .CHAPTER_LOOKUP, original_query := q,
            chapter := some (normalizeChapterId ch), confidence := 0.95 }
      | _, _ =>
        match reSearch recitalRE q with
        | some (r :: _) =>
            { query_type := .RECITAL_LOOKUP, original_query := q,
              recital := some r, confidence := 0.95 }
        | _ =>
          match checkExactReference q with
          | some result => result
          | none =>
            if comparisonKeywords.any (fun kw => strContains ql kw) then
              let articles := extractArticleNumbers q
              { query_type := .COMPARISON, original_query := q,
                article := articles.head?, confidence := 0.8,
                extracted_concepts := articles }
            else if conceptualKeywords.any (fun kw => strContains ql kw) then
              let articles := extractArticleNumbers q
              { query_type := .CONCEPTUAL, original_query := q,
                article := articles.head?, confidence := 0.7,
                extracted_concepts := articles }
            else
              { query_type := .GENERAL, original_query := q,
                confidence := 0.5 }

/-! ## LangChain `Document`s as stored by this system

`DocumentChunk.to_langchain_document` stores string metadata under the
keys `chunk_id`, `level`, `full_reference`, `page` and the nine
`LegalReference` fields; the retrieval code reads them with
`metadata.get(key)`, which yields `None` for an absent key.  Only the
keys the retrieval layer reads are modelled. -/

structure Doc where
  page_content : String
  chunk_id : Option String := none
  level : Option String := none
  recital : Option String := none
  chapter : Option String := none
  «section» : Option String := none
  article : Option String := none
  subsection : Option String := none
  point : Option String := none
deriving DecidableEq, Repr

/-- `doc.metadata.get(key)`. -/
def Doc.get (d : Doc) (key : String) : Option String :=
  if key = "chunk_id" then d.chunk_id
  else if key = "level" then d.level
  else if key = "recital" then d.recital
  else if key = "chapter" then d.chapter
  else if key = "section" then d.«section»
  else if key = "article" then d.article
  else if key = "subsection" then d.subsection
  else if key = "point" then d.point
  else none

/-! ## `ExactRetriever` (`exact_retriever.py`)

The FAISS store is abstracted to the list of documents that
`ExactRetriever._get_all_documents` returns (its k=2000
`similarity_search` scan). -/

/-- `ExactRetriever._build_metadata_filter` (dict as ordered pairs). -/
def buildMetadataFilter (a : QueryAnalysis) : List (String × String) :=
  if pyTruthy a.recital then [("recital", pyStr a.recital)]
  else
    (if pyTruthy a.article then [("article", pyStr a.article)] else []) ++
    (if pyTruthy a.subsection then [("subsection", pyStr a.subsection)] else []) ++
    (if pyTruthy a.point then [("point", pyStr a.point)] else [])

/-- `ExactRetriever._filter_documents`: keep documents whose metadata
matches every filter key by string equality
(`str(doc.metadata.get(key)) != str(value)` rejects). -/
def filterDocuments (documents : List Doc) (filt : List (String × String)) :
    List Doc :=
  documents.filter (fun d => filt.all (fun kv => pyStr (d.get kv.1) == kv.2))

/-- `specificity_score` inside `_sort_by_specificity`. -/
def specificityScore (d : Doc) : Int :=
  (if pyTruthy (d.get "point") then 100 else 0) +
  (if pyTruthy (d.get "subsection") then 10 else 0) +
  (if pyTruthy (d.get "article") then 1 else 0) +
  (if pyTruthy (d.get "recital") then 1 else 0)

/-- The `target_level` computed by `_sort_by_specificity`. -/
def targetLevel (a : QueryAnalysis) : Option String :=
  if pyTruthy a.recital then some "recital"
  else if pyTruthy a.point then some "point"
  else if pyTruthy a.subsection then some "subsection"
  else if pyTruthy a.article then some "article"
  else none

/-- The `level_match` component of `custom_sort`
(`if target_level and str(doc_level) == target_level`). -/
def levelMatchScore (a : QueryAnalysis) (d : Doc) : Int :=
  match targetLevel a with
  | some t => if pyStr (d.get "level") = t then 1 else 0
  | none => 0

/-- `custom_sort`'s key `(-level_match, -specificity)`. -/
def sortKey (a : QueryAnalysis) (d : Doc) : Int × Int :=
  (-(levelMatchScore a d), -(specificityScore d))

/-- Lexicographic strict order on sort keys (Python tuple `<`). -/
def keyLt (p q : Int × Int) : Bool :=
  if p.1 < q.1 then true
  else if p.1 = q.1 then decide (p.2 < q.2)
  else false

/-- `doc1` sorts strictly before `doc2` under `custom_sort`. -/
def docLt (a : QueryAnalysis) (d1 d2 : Doc) : Bool :=
  keyLt (sortKey a d1) (sortKey a d2)

/-- Stable ascending insertion (auxiliary for Python `sorted`):
`x` goes after every element strictly smaller than it and before the
first element not strictly smaller, so original order is kept on ties. -/
def insertAsc {α : Type} (lt : α → α → Bool) (x : α) : List α → List α
  | [] => [x]
  | y :: ys => if lt y x then y :: insertAsc lt x ys else x :: y :: ys

/-- Python `sorted(l, key=...)`: stable ascending sort, parameterised by
the strict comparison induced by the key. -/
def pySorted {α : Type} (lt : α → α → Bool) (l : List α) : List α :=
  l.foldr (insertAsc lt) []

/-- `ExactRetriever._sort_by_specificity`. -/
def sortBySpecificity (documents : List Doc) (a : QueryAnalysis) : List Doc :=
  pySorted (docLt a) documents

/-- Python `a < b` on `Int` as a `Bool` (for `sorted(articles_found)`). -/
def intLt (a b : Int) : Bool := decide (a < b)

/-- `ExactRetriever.retrieve` over an abstract store.  The surrounding
`try` only guards store access, which the abstraction makes total. -/
def exactRetrieve (store : List Doc) (a : QueryAnalysis) (k : Nat) :
    List Doc :=
  let filt := buildMetadataFilter a
  if filt = [] then []
  else (sortBySpecificity (filterDocuments store filt) a).take k

/-- The parent-subsection probe built inside `retrieve_with_context`. -/
def parentSubsectionAnalysis (a : QueryAnalysis) : QueryAnalysis :=
  { query_type := .EXACT_REFERENCE, original_query := a.original_query,
    article := a.article, subsection := a.subsection }

/-- The parent-article probe built inside `retrieve_with_context`. -/
def parentArticleAnalysis (a : QueryAnalysis) : QueryAnalysis :=
  { query_type := .ARTICLE_LOOKUP, original_query := a.original_query,
    article := a.article }

/-- The dedup loop of `retrieve_with_context`: a document is kept only
if its `chunk_id` is truthy and unseen (documents without a truthy
`chunk_id` are dropped altogether). -/
def dedupCtxGo (seen : List String) : List Doc → List Doc
  | [] => []
  | d :: ds =>
    match d.get "chunk_id" with
    | some cid =>
        if cid ≠ "" then
          if cid ∈ seen then dedupCtxGo seen ds
          else d :: dedupCtxGo (cid :: seen) ds
        else dedupCtxGo seen ds
    | none => dedupCtxGo seen ds

def dedupByChunkId (docs : List Doc) : List Doc := dedupCtxGo [] docs

/-- `ExactRetriever.retrieve_with_context`. -/
def retrieveWithContext (store : List Doc) (a : QueryAnalysis) (k : Nat) :
    List Doc :=
  let results := exactRetrieve store a 1
  if pyTruthy a.recital then results
  else
    let results := results ++
      (if pyTruthy a.point && pyTruthy a.subsection then
        exactRetrieve store (parentSubsectionAnalysis a) 1
      else [])
    let results := results ++
      (if pyTruthy a.subsection then
        exactRetrieve store (parentArticleAnalysis a) 1
      else [])
    (dedupByChunkId results).take k

/-! ## `HybridRetriever` (`hybrid_retriever.py`)

External collaborators are bundled in an environment: `analyze` models
`self.query_analyzer.analyze` (an `Except` result models a raised
`QueryRoutingError`); `semantic` and `semanticBoost` model the
`SemanticRetriever` (which wraps the external embedding model and
reranker); `allDocs` models `HybridRetriever._get_all_documents`
(its k=5000 scan) and `exactDocs` models
`ExactRetriever._get_all_documents` (its k=2000 scan). -/

structure Env where
  analyze : String → Except String QueryAnalysis
  semantic : String → Nat → List Doc
  semanticBoost : String → String → Nat → List Doc
  allDocs : List Doc
  exactDocs : List Doc

/-- The dedup key of `HybridRetriever._deduplicate_documents`:
`metadata.get("chunk_id", str(hash(doc.page_content)))`.  The fallback
`str(hash(...))` is modelled as an injective tag on the content,
disjoint from real chunk-id strings. -/
def routerKey (d : Doc) : Sum String String :=
  match d.get "chunk_id" with
  | some cid => Sum.inl cid
  | none => Sum.inr d.page_content

/-- Membership of a dedup key in the `seen` set. -/
def keySeen (x : Sum String String) (seen : List (Sum String String)) : Bool :=
  seen.any (fun y => decide (y = x))

/-- Loop of `HybridRetriever._deduplicate_documents`. -/
def dedupGo (seen : List (Sum String String)) : List Doc → List Doc
  | [] => []
  | d :: ds =>
    if keySeen (routerKey d) seen then dedupGo seen ds
    else d :: dedupGo (routerKey d :: seen) ds

/-- `HybridRetriever._deduplicate_documents`. -/
def deduplicateDocuments (docs : List Doc) : List Doc := dedupGo [] docs

/-- `HybridRetriever._get_alternate_chapter_format` on a string id. -/
def getAlternateChapterFormat (chapterId : String) : String :=
  match romanToArabic.lookup chapterId with
  | some v => v
  | none =>
    match (romanToArabic.map (fun kv => (kv.2, kv.1))).lookup chapterId with
    | some v => v
    | none => chapterId

/-- `_get_alternate_chapter_format(analysis.chapter)`: a `None` chapter
falls through both dictionary tests and is returned unchanged. -/
def altChapterOf (c : Option String) : Option String :=
  c.map getAlternateChapterFormat

/-- The `articles_found` / `articles_in_section` / `articles_in_chapter`
loop shared by the three group handlers: collect `int(article)` for
every document whose `article` metadata is truthy, skipping values
`int()` rejects. -/
def articleNumsOf (docs : List Doc) : List Int :=
  docs.filterMap (fun d =>
    match d.get "article" with
    | some s => if s ≠ "" then pyInt s else none
    | none => none)

/-- The `first_article_docs` filter shared by the group handlers:
`str(metadata["article"]) == first and metadata["level"] == "article"`. -/
def firstArticleDocsOf (group : List Doc) (first : String) : List Doc :=
  group.filter (fun d =>
    pyStr (d.get "article") == first && d.get "level" == some "article")

/-- The `context_docs` filter shared by the group handlers:
`metadata.get("article") in [str(a) for a in context_articles]`
(a `None` value is never in a list of strings). -/
def contextDocsOf (group : List Doc) (ctxStrs : List String) : List Doc :=
  group.filter (fun d =>
    match d.get "article" with
    | some s => ctxStrs.contains s
    | none => false)

/-- The tail shared verbatim by `_handle_chapter_section_lookup`
(lines 125-167), `_handle_section_lookup` (186-223) and
`_handle_chapter_lookup` (252-288): empty group → semantic fallback on
the original query; no parseable article numbers → `group[:k]`;
otherwise the lowest article's `article`-level chunks followed by all
chunks of the first three entries of the sorted (possibly duplicated)
article-number list, deduplicated and truncated to `k`. -/
def lookupFromGroup (fallback group : List Doc) (k : Nat) : List Doc :=
  if group = [] then fallback
  else
    match articleNumsOf group with
    | [] => group.take k
    | n :: rest =>
      let first := toString (pyMinInt n rest)
      let ctxStrs := ((pySorted intLt (n :: rest)).take 3).map toString
      (deduplicateDocuments
        (firstArticleDocsOf group first ++ contextDocsOf group ctxStrs)).take k

/-- The `section_docs` filter of `_handle_section_lookup`
(`str(metadata.get("section")) == str(analysis.section)`); note there is
no alternate-format retry for sections. -/
def sectionDocsOf (env : Env) (a : QueryAnalysis) : List Doc :=
  env.allDocs.filter (fun d => pyStr (d.get "section") == pyStr a.«section»)

/-- `HybridRetriever._handle_section_lookup`. -/
def handleSectionLookup (env : Env) (a : QueryAnalysis) (k : Nat) : List Doc :=
  lookupFromGroup (env.semantic a.original_query k) (sectionDocsOf env a) k

/-- First chapter filter of `_handle_chapter_lookup`. -/
def chapterPrimaryDocs (env : Env) (a : QueryAnalysis) : List Doc :=
  env.allDocs.filter (fun d => pyStr (d.get "chapter") == pyStr a.chapter)

/-- Retry filter of `_handle_chapter_lookup` with the alternate
Roman/Arabic chapter format. -/
def chapterAltDocs (env : Env) (a : QueryAnalysis) : List Doc :=
  env.allDocs.filter (fun d =>
    pyStr (d.get "chapter") == pyStr (altChapterOf a.chapter))

/-- `chapter_docs` after the conditional retry. -/
def chapterDocsOf (env : Env) (a : QueryAnalysis) : List Doc :=
  let p := chapterPrimaryDocs env a
  if p = [] then chapterAltDocs env a else p

/-- `HybridRetriever._handle_chapter_lookup`. -/
def handleChapterLookup (env : Env) (a : QueryAnalysis) (k : Nat) : List Doc :=
  lookupFromGroup (env.semantic a.original_query k) (chapterDocsOf env a) k

/-- First conjunctive filter of `_handle_chapter_section_lookup`. -/
def chapterSectionPrimaryDocs (env : Env) (a : QueryAnalysis) : List Doc :=
  env.allDocs.filter (fun d =>
    pyStr (d.get "chapter") == pyStr a.chapter &&
    pyStr (d.get "section") == pyStr a.«section»)

/-- Retry filter of `_handle_chapter_section_lookup` (alternate format
applies to the chapter component only). -/
def chapterSectionAltDocs (env : Env) (a : QueryAnalysis) : List Doc :=
  env.allDocs.filter (fun d =>
    pyStr (d.get "chapter") == pyStr (altChapterOf a.chapter) &&
    pyStr (d.get "section") == pyStr a.«section»)

/-- `filtered_docs` of `_handle_chapter_section_lookup` after the retry. -/
def chapterSectionDocsOf (env : Env) (a : QueryAnalysis) : List Doc :=
  let p := chapterSectionPrimaryDocs env a
  if p = [] then chapterSectionAltDocs env a else p

/-- `HybridRetriever._handle_chapter_section_lookup`. -/
def handleChapterSectionLookup (env : Env) (a : QueryAnalysis) (k : Nat) :
    List Doc :=
  lookupFromGroup (env.semantic a.original_query k)
    (chapterSectionDocsOf env a) k

/-- `HybridRetriever._handle_recital_lookup`. -/
def handleRecitalLookup (env : Env) (a : QueryAnalysis) (k : Nat) : List Doc :=
  let docs := exactRetrieve env.exactDocs a k
  if docs = [] then env.semantic a.original_query k else docs

/-- `HybridRetriever._handle_exact_reference`. -/
def handleExactReference (env : Env) (a : QueryAnalysis) (k : Nat) :
    List Doc :=
  let docs := retrieveWithContext env.exactDocs a k
  if docs = [] then env.semantic a.original_query k else docs

/-- `HybridRetriever._handle_article_lookup`. -/
def handleArticleLookup (env : Env) (a : QueryAnalysis) (k : Nat) : List Doc :=
  let docs := exactRetrieve env.exactDocs a k
  if docs = [] then env.semantic a.original_query k else docs

/-- `HybridRetriever._handle_conceptual`. -/
def handleConceptual (env : Env) (q : String) (a : QueryAnalysis) (k : Nat) :
    List Doc :=
  if pyTruthy a.article then env.semanticBoost q (pyStr a.article) k
  else env.semantic q k

/-- The candidate list built by `_handle_comparison` before
deduplication: semantic results at `2*k`, extended (in order) by an
exact backfill for each of the first two extracted articles that no
semantic result carries (`metadata.get("article") == article_i`). -/
def comparisonCandidates (env : Env) (q : String) (a : QueryAnalysis)
    (k : Nat) : List Doc :=
  let docs := env.semantic q (k * 2)
  match a.extracted_concepts with
  | article1 :: article2 :: _ =>
    let hasArticle1 := docs.any (fun d => d.get "article" == some article1)
    let hasArticle2 := docs.any (fun d => d.get "article" == some article2)
    let docs := docs ++
      (if hasArticle1 then []
       else exactRetrieve env.exactDocs
         { query_type := .ARTICLE_LOOKUP, original_query := q,
           article := some article1 } 2)
    docs ++
      (if hasArticle2 then []
       else exactRetrieve env.exactDocs
         { query_type := .ARTICLE_LOOKUP, original_query := q,
           article := some article2 } 2)
  | _ => docs

/-- `HybridRetriever._handle_comparison`. -/
def handleComparison (env : Env) (q : String) (a : QueryAnalysis) (k : Nat) :
    List Doc :=
  (deduplicateDocuments (comparisonCandidates env q a k)).take k

/-- `HybridRetriever._handle_general`. -/
def handleGeneral (env : Env) (q : String) (k : Nat) : List Doc :=
  env.semantic q k

/-- `HybridRetriever._fallback_retrieval`. -/
def fallbackRetrieval (env : Env) (q : String) (k : Nat) : List Doc :=
  env.semantic q k

/-- Step 2 of `HybridRetriever.retrieve`: the dispatch table. -/
def dispatch (env : Env) (q : String) (a : QueryAnalysis) (k : Nat) :
    List Doc :=
  match a.query_type with
  | .CHAPTER_SECTION_LOOKUP => handleChapterSectionLookup env a k
  | .SECTION_LOOKUP => handleSectionLookup env a k
  | .CHAPTER_LOOKUP => handleChapterLookup env a k
  | .RECITAL_LOOKUP => handleRecitalLookup env a k
  | .EXACT_REFERENCE => handleExactReference env a k
  | .ARTICLE_LOOKUP => handleArticleLookup env a k
  | .CONCEPTUAL => handleConceptual env q a k
  | .COMPARISON => handleComparison env q a k
  | .GENERAL => handleGeneral env q k

/-- `k = k or Config.RETRIEVER_K_FINAL` with `RETRIEVER_K_FINAL = 3`
(`None` and `0` are falsy). -/
def pyOrK (k : Option Nat) : Nat :=
  match k with
  | none => 3
  | some 0 => 3
  | some (n + 1) => n + 1

/-- `HybridRetriever.retrieve`.  The `try` block covers classification,
dispatch and fallback; with total handlers the only modelled failure is
the analyzer's raise, answered by the `except` branch: plain semantic
retrieval plus `QueryAnalysis(query_type=GENERAL, original_query=query)`
(every other field keeps its dataclass default). -/
def retrieve (env : Env) (q : String) (k : Option Nat) :
    List Doc × QueryAnalysis :=
  let kEff := pyOrK k
  match env.analyze q with
  | .error _ =>
      (env.semantic q kEff, { query_type := .GENERAL, original_query := q })
  | .ok a =>
      let docs := dispatch env q a kEff
      let docs := if docs = [] then fallbackRetrieval env q kEff else docs
      (docs, a)

/-! ## Document structures and the chunk builder
(`document_structure.py`, `pdf_parser.py`) -/

inductive DocumentLevel where
  | REGULATION
  | RECITAL
  | CHAPTER
  | SECTION
  | ARTICLE
  | SUBSECTION
  | POINT
deriving DecidableEq, Repr

/-- The `LegalReference` dataclass; all fields default to `None`. -/
structure LegalReference where
  recital : Option String := none
  chapter : Option String := none
  chapter_title : Option String := none
  «section» : Option String := none
  section_title : Option String := none
  article : Option String := none
  article_title : Option String := none
  subsection : Option String := none
  point : Option String := none
deriving DecidableEq, Repr

/-- The `DocumentChunk` dataclass. -/
structure DocumentChunk where
  content : String
  reference : LegalReference
  page : Nat
  chunk_id : String
  level : DocumentLevel
  parent_content : Option String := none
deriving DecidableEq, Repr

/-- One entry of a subsection's `points` list (`{letter, text}`). -/
structure PointData where
  letter : String
  text : String
deriving DecidableEq, Repr

/-- One entry of `ArticleStructure.subsections`
(`{number, text, points}`). -/
structure SubsectionData where
  number : String
  text : String
  points : List PointData
deriving DecidableEq, Repr

/-- The `ArticleStructure` dataclass.  Note that it declares *no*
`section_title` field — `id, title, page, full_text, subsections,
chapter, section, is_recital` is the complete field list. -/
structure ArticleStructure where
  id : String
  title : String
  page : Nat
  full_text : String
  subsections : List SubsectionData := []
  chapter : Option String := none
  «section» : Option String := none
  is_recital : Bool := false
deriving DecidableEq, Repr

/-- The single chunk the recital branch of
`create_chunks_from_articles` appends:
`DocumentChunk(content=struct.full_text,
reference=LegalReference(recital=struct.id), page=struct.page,
chunk_id=f"regulation_point_(struct.id)", level=DocumentLevel.RECITAL)`. -/
def recitalChunk (s : ArticleStructure) : DocumentChunk :=
  { content := s.full_text,
    reference := { recital := some s.id },
    page := s.page,
    chunk_id := "regulation_point_" ++ s.id,
    level := .RECITAL }

/-- The chunks one structure contributes in
`create_chunks_from_articles`.  The recital branch succeeds with
exactly one `RECITAL`-level chunk.  The article branch immediately
evaluates `struct.section_title` (pdf_parser.py line 268) — an
attribute the `ArticleStructure` dataclass does not declare — so it
raises `AttributeError` before building any chunk; the lines building
the article, subsection and point chunks (265–321) are unreachable, and
the raise is modelled as an `Except.error`. -/
def chunksOfStruct (s : ArticleStructure) : Except String (List DocumentChunk) :=
  if s.is_recital then .ok [recitalChunk s]
  else .error "AttributeError: ArticleStructure has no section_title"

/-- `LegalDocumentParser.create_chunks_from_articles`: the loop over
`articles`; an exception raised mid-loop discards the accumulated
chunks and propagates. -/
def createChunksFromArticles :
    List ArticleStructure → Except String (List DocumentChunk)
  | [] => .ok []
  | s :: rest =>
    match chunksOfStruct s with
    | .error e => .error e
    | .ok cs =>
      match createChunksFromArticles rest with
      | .error e => .error e
      | .ok more => .ok (cs ++ more)

/-! ## Concrete instances used by witnesses and counterexamples -/

def c1doc : Doc := { page_content := "GDPR overview" }

def c1env : Env :=
  { analyze := fun _ => .error "classification failed",
    semantic := fun _ _ => [c1doc],
    semanticBoost := fun _ _ _ => [],
    allDocs := [], exactDocs := [] }

def c2struct : ArticleStructure :=
  { id := "7", title := "Regulation Point", page := 2,
    full_text := "recital seven text", is_recital := true }

def c3p : Doc :=
  { page_content := "point text", chunk_id := some "article_15_1_a",
    level := some "point", article := some "15", subsection := some "1",
    point := some "a" }

def c3s : Doc :=
  { page_content := "subsection text", chunk_id := some "article_15_1",
    level := some "subsection", article := some "15",
    subsection := some "1" }

def c3aDoc : Doc :=
  { page_content := "article text", chunk_id := some "article_15",
    level := some "article", article := some "15" }

def c3q : QueryAnalysis :=
  { query_type := .ARTICLE_LOOKUP, original_query := "Show me Article 15",
    article := some "15", confidence := 0.85 }

def c4a : QueryAnalysis :=
  { query_type := .CONCEPTUAL, original_query := "what is consent",
    article := some "5", confidence := 0.7 }

def c4doc : Doc :=
  { page_content := "article five text", chunk_id := some "article_5" }

def c4env : Env :=
  { analyze := fun _ => .ok c4a,
    semantic := fun _ _ => [c4doc],
    semanticBoost := fun _ _ _ => [],
    allDocs := [], exactDocs := [] }

def c5doc6 : Doc :=
  { page_content := "Article 6 lawfulness", chunk_id := some "article_6",
    level := some "article", article := some "6" }

def c5doc7 : Doc :=
  { page_content := "Article 7 consent", chunk_id := some "article_7",
    level := some "article", article := some "7" }

def c5env : Env :=
  { analyze := fun q => .ok (analyze q),
    semantic := fun _ _ => [],
    semanticBoost := fun _ _ _ => [],
    allDocs := [], exactDocs := [c5doc6, c5doc7] }

def c5a : QueryAnalysis :=
  { query_type := .COMPARISON,
    original_query := "difference between Article 6. and Article 7.",
    article := some "6", confidence := 0.8,
    extracted_concepts := ["6", "7"] }

def c6docIV : Doc :=
  { page_content := "Article 4 Definitions", chunk_id := some "article_4",
    level := some "article", article := some "4", «section» := some "IV" }

def c6env : Env :=
  { analyze := fun _ => .error "",
    semantic := fun _ _ => [],
    semanticBoost := fun _ _ _ => [],
    allDocs := [c6docIV], exactDocs := [] }

def c6a : QueryAnalysis :=
  { query_type := .SECTION_LOOKUP,
    original_query := "Section 4 starts from which article?",
    «section» := some "4", confidence := 0.95 }

def c6wdoc4 : Doc :=
  { page_content := "Article 4", chunk_id := some "article_4",
    level := some "article", article := some "4", «section» := some "2" }

def c6wdoc4s : Doc :=
  { page_content := "Article 4 paragraph 1", chunk_id := some "article_4_1",
    level := some "subsection", article := some "4",
    subsection := some "1", «section» := some "2" }

def c6wdoc5 : Doc :=
  { page_content := "Article 5", chunk_id := some "article_5",
    level := some "article", article := some "5", «section» := some "2" }

def c6wenv : Env :=
  { analyze := fun _ => .error "",
    semantic := fun _ _ => [],
    semanticBoost := fun _ _ _ => [],
    allDocs := [c6wdoc4, c6wdoc4s, c6wdoc5], exactDocs := [] }

def c6wa : QueryAnalysis :=
  { query_type := .SECTION_LOOKUP,
    original_query := "Section 2 starts from which article?",
    «section» := some "2", confidence := 0.95 }

def c7q : String := "Show me Article 6"

def c8rdoc : Doc :=
  { page_content := "Recital 4 text", chunk_id := some "regulation_point_4",
    level := some "recital", recital := some "4" }

def c8ra : QueryAnalysis :=
  { query_type := .RECITAL_LOOKUP, original_query := "What is Recital 4?",
    recital := some "4", confidence := 0.95 }

def c8dP : Doc :=
  { page_content := "point a text", chunk_id := some "article_15_1_a",
    level := some "point", article := some "15", subsection := some "1",
    point := some "a" }

def c8dS : Doc :=
  { page_content := "subsection 1 text", chunk_id := some "article_15_1",
    level := some "subsection", article := some "15",
    subsection := some "1" }

def c8dA : Doc :=
  { page_content := "article 15 text", chunk_id := some "article_15",
    level := some "article", article := some "15" }

def c8store : List Doc := [c8dA, c8dS, c8dP]

def c8a : QueryAnalysis :=
  { query_type := .EXACT_REFERENCE,
    original_query := "What is Article 15.1.a?",
    article := some "15", subsection := some "1", point := some "a",
    confidence := 0.95 }

def c9struct : ArticleStructure :=
  { id := "12", title := "Regulation Point", page := 3,
    full_text := "recital twelve text", is_recital := true }

/-! # Theorems -/

/-- C2 (counterexample): on a concrete recital structure the chunk
builder emits the chunk id `"regulation_point_7"`, not the
`"recital_7"` the specification promises. -/
theorem c2_recital_chunk_id_counterexample :
    createChunksFromArticles [c2struct] = .ok [recitalChunk c2struct] ∧
    (recitalChunk c2struct).chunk_id = "regulation_point_7" ∧
    (recitalChunk c2struct).chunk_id ≠ "recital_7" := by
  refine ⟨rfl, rfl, by decide⟩

/-- C2 (amended): for every list of recital structures the chunk
builder succeeds and emits exactly one `RECITAL`-level chunk per
structure, whose `chunk_id` is `"regulation_point_"` followed by the
recital's id and whose reference carries only the recital id; being a
pure function of the structures, re-running it reproduces identical
chunk ids. -/
theorem c2_recital_chunk_amended (structs : List ArticleStructure)
    (hrec : ∀ t ∈ structs, t.is_recital = true) :
    createChunksFromArticles structs = .ok (structs.map recitalChunk) ∧
    ∀ s ∈ structs,
      (recitalChunk s).level = .RECITAL ∧
      (recitalChunk s).chunk_id = "regulation_point_" ++ s.id ∧
      (recitalChunk s).reference = { recital := some s.id } := by
  constructor
  · induction structs with
    | nil => rfl
    | cons s rest ih =>
      have hs : s.is_recital = true := hrec s (List.mem_cons_self s rest)
      have hrest : ∀ t ∈ rest, t.is_recital = true :=
        fun t ht => hrec t (List.mem_cons_of_mem s ht)
      simp only [createChunksFromArticles, chunksOfStruct, hs, if_true,
        ih hrest, List.map_cons, List.singleton_append]
  · intro s _
    exact ⟨rfl, rfl, rfl⟩

/-- C2 (witness): the amended theorem instantiated at a concrete
recital structure. -/
theorem c2_recital_chunk_amended_witness :
    createChunksFromArticles [c2struct] = .ok ([c2struct].map recitalChunk) ∧
    ∀ s ∈ [c2struct],
      (recitalChunk s).level = .RECITAL ∧
      (recitalChunk s).chunk_id = "regulation_point_" ++ s.id ∧
      (recitalChunk s).reference = { recital := some s.id } :=
  c2_recital_chunk_amended [c2struct] (by decide)

/-- C9: every chunk the builder returns whose reference carries a
recital id has all article-family fields (and titles) unset. -/
theorem c9_recital_reference_exclusive
    (structs : List ArticleStructure) (chunks : List DocumentChunk)
    (hok : createChunksFromArticles structs = .ok chunks) :
    ∀ c ∈ chunks, c.reference.recital ≠ none →
      c.reference.chapter = none ∧ c.reference.chapter_title = none ∧
      c.reference.«section» = none ∧ c.reference.section_title = none ∧
      c.reference.article = none ∧ c.reference.article_title = none ∧
      c.reference.subsection = none ∧ c.reference.point = none := by
  induction structs generalizing chunks with
  | nil =>
    cases hok
    intro c hc
    cases hc
  | cons s rest ih =>
    intro c hc hcrec
    unfold createChunksFromArticles at hok
    by_cases hs : s.is_recital = true
    · simp only [chunksOfStruct, hs, if_true] at hok
      cases hrest : createChunksFromArticles rest with
      | error e => rw [hrest] at hok; cases hok
      | ok more =>
        rw [hrest] at hok
        cases hok
        rcases List.mem_cons.mp hc with rfl | hmem
        · exact ⟨rfl, rfl, rfl, rfl, rfl, rfl, rfl, rfl⟩
        · exact ih more hrest c hmem hcrec
    · simp only [chunksOfStruct, hs] at hok
      cases hok

/-- C9 (witness): instantiated on a concrete one-recital corpus. -/
theorem c9_recital_reference_exclusive_witness :
    (recitalChunk c9struct).reference.chapter = none ∧
    (recitalChunk c9struct).reference.article = none ∧
    (recitalChunk c9struct).reference.subsection = none ∧
    (recitalChunk c9struct).reference.point = none := by
  have h := c9_recital_reference_exclusive [c9struct]
    [recitalChunk c9struct] rfl (recitalChunk c9struct)
    (List.mem_singleton.mpr rfl) (by decide)
  exact ⟨h.1, h.2.2.2.2.1, h.2.2.2.2.2.2.1, h.2.2.2.2.2.2.2⟩

/-- C1 (counterexample): when classification raises, the analysis the
router returns has confidence `0.0` (the dataclass default), not the
`0.3` the specification promises. -/
theorem c1_classifier_failure_counterexample :
    (retrieve c1env "what is consent" none).2.query_type = .GENERAL ∧
    (retrieve c1env "what is consent" none).2.confidence = 0 ∧
    (retrieve c1env "what is consent" none).2.confidence ≠ (0.3 : ℚ) := by
  refine ⟨rfl, rfl, ?_⟩
  have h0 : (retrieve c1env "what is consent" none).2.confidence = 0 := rfl
  rw [h0]
  norm_num

/-- C1 (amended): if classification raises, `HybridRetriever.retrieve`
does not propagate the error: it returns the semantic retriever's
results for the original query together with a well-formed
`QueryAnalysis` whose `query_type` is `GENERAL`; its confidence is the
dataclass default `0.0` (not `0.3`) and every reference field is unset. -/
theorem c1_classifier_failure_amended (env : Env) (q : String)
    (k : Option Nat) (e : String) (h : env.analyze q = .error e) :
    retrieve env q k =
      (env.semantic q (pyOrK k),
       { query_type := .GENERAL, original_query := q }) ∧
    (retrieve env q k).2.confidence = 0 := by
  constructor <;> simp [retrieve, h]

/-- C1 (witness): the amended theorem at a concrete failing classifier. -/
theorem c1_classifier_failure_amended_witness :
    retrieve c1env "what is consent" none =
      (c1env.semantic "what is consent" (pyOrK none),
       { query_type := .GENERAL, original_query := "what is consent" }) ∧
    (retrieve c1env "what is consent" none).2.confidence = 0 :=
  c1_classifier_failure_amended c1env "what is consent" none
    "classification failed" rfl

/-- C4: if the dispatched handler returns an empty list, the router
performs exactly one retry via the semantic retriever on the original
query text and returns its result unconditionally (the fallback is
never applied a second time); a nonempty handler result is returned
as-is. -/
theorem c4_empty_fallback (env : Env) (q : String) (k : Option Nat)
    (a : QueryAnalysis) (h : env.analyze q = .ok a) :
    (dispatch env q a (pyOrK k) = [] →
      retrieve env q k = (env.semantic q (pyOrK k), a)) ∧
    (dispatch env q a (pyOrK k) ≠ [] →
      retrieve env q k = (dispatch env q a (pyOrK k), a)) := by
  constructor <;> intro h2 <;> simp [retrieve, h, h2, fallbackRetrieval]

/-- C4 (witness): a conceptual query whose metadata-boost handler comes
back empty is answered by the semantic retriever's result. -/
theorem c4_empty_fallback_witness :
    dispatch c4env "what is consent" c4a (pyOrK (some 3)) = [] ∧
    retrieve c4env "what is consent" (some 3) =
      (c4env.semantic "what is consent" (pyOrK (some 3)), c4a) :=
  ⟨rfl, (c4_empty_fallback c4env "what is consent" (some 3) c4a rfl).1 rfl⟩

/-- C7: a query matching the bare article pattern and no higher-priority
pattern is classified `ARTICLE_LOOKUP` at confidence 0.85 when the query
contains one of the retrieval verbs, else `CONCEPTUAL` at 0.70, with
`article` set to the captured number either way. -/
theorem c7_bare_article (q : String) (n : String) (caprest : List String)
    (h1 : reSearch chapterSectionRE q = none)
    (h2 : reSearch sectionRE q = none ∨
          isSectionQuery (pyStrip (pyLower q)) = false)
    (h3 : reSearch chapterRE q = none ∨
          isChapterQuery (pyStrip (pyLower q)) = false)
    (h4 : reSearch recitalRE q = none)
    (h5 : reSearch fullRefDotRE q = none)
    (h6 : reSearch fullRefParenRE q = none)
    (h7 : reSearch artSubDotRE q = none)
    (h8 : reSearch artSubParenRE q = none)
    (h9 : reSearch articleOnlyRE q = some (n :: caprest)) :
    (lookupPhrases.any (fun p => strContains (pyLower q) p) = true →
      analyze q = { query_type := .ARTICLE_LOOKUP, original_query := q,
                    article := some n, confidence := 0.85 }) ∧
    (lookupPhrases.any (fun p => strContains (pyLower q) p) = false →
      analyze q = { query_type := .CONCEPTUAL, original_query := q,
                    article := some n, confidence := 0.7 }) := by
  have hce : checkExactReference q = some
      { query_type := if lookupPhrases.any (fun p => strContains (pyLower q) p)
                      then .ARTICLE_LOOKUP else .CONCEPTUAL,
        original_query := q, article := some n,
        confidence := if lookupPhrases.any (fun p => strContains (pyLower q) p)
                      then (0.85 : ℚ) else 0.7 } := by
    simp only [checkExactReference, h5, h6, h7, h8, h9]
  constructor <;> intro hv <;>
    rcases hS : reSearch sectionRE q with _ | ⟨_ | ⟨s1, srest⟩⟩ <;>
    rcases hC : reSearch chapterRE q with _ | ⟨_ | ⟨ch1, crest⟩⟩ <;>
    simp_all [analyze, hce]

/-- C7 (witness): `"Show me Article 6"` contains the verb `"show"`,
so it is classified `ARTICLE_LOOKUP` with article `"6"`. -/
theorem c7_bare_article_witness :
    analyze c7q = { query_type := .ARTICLE_LOOKUP, original_query := c7q,
                    article := some "6", confidence := 0.85 } :=
  (c7_bare_article c7q "6" [] (by decide) (Or.inl (by decide))
    (Or.inl (by decide)) (by decide) (by decide) (by decide) (by decide)
    (by decide) (by decide)).1 (by decide)

/-- Every analysis `_check_exact_reference` returns carries one of the
confidences 0.95, 0.9, 0.85, 0.7 (helper for C10). -/
theorem checkExact_confidence (q : String) (r : QueryAnalysis)
    (h : checkExactReference q = some r) :
    r.confidence = 0.95 ∨ r.confidence = 0.9 ∨ r.confidence = 0.85 ∨
    r.confidence = 0.7 := by
  unfold checkExactReference at h
  repeat' split at h
  all_goals try cases h
  all_goals
    cases hv : lookupPhrases.any (fun p => strContains (pyLower q) p) <;>
      first
        | exact Or.inl rfl
        | exact Or.inr (Or.inl rfl)
        | exact Or.inr (Or.inr (Or.inl rfl))
        | exact Or.inr (Or.inr (Or.inr rfl))

/-- C10: for every query the analyzer returns a confidence from the
fixed palette `{0.5, 0.7, 0.8, 0.85, 0.9, 0.95}` — in particular it is
always inside `[0,1]` and never the dataclass default `0.0`.  (The
embedded `analyze` is total: the source's `except` branch re-raises, but
no string/regex operation in the `try` body can raise, so "returns
normally" holds for every query.) -/
theorem c10_confidence_palette (q : String) :
    (analyze q).confidence ∈ ([0.5, 0.7, 0.8, 0.85, 0.9, 0.95] : List ℚ) := by
  simp only [analyze]
  repeat' split
  all_goals simp only [List.mem_cons, List.mem_singleton]
  all_goals try norm_num
  case _ r heq =>
    rcases checkExact_confidence q r heq with h | h | h | h <;>
      rw [h] <;> norm_num

/-! ## List lemmas about the embedded sorting and deduplication -/

theorem insertAsc_perm {α : Type} (lt : α → α → Bool) (x : α) (l : List α) :
    List.Perm (insertAsc lt x l) (x :: l) := by
  induction l with
  | nil => exact List.Perm.refl _
  | cons y ys ih =>
    unfold insertAsc
    by_cases h : lt y x = true
    · rw [if_pos h]
      exact (ih.cons y).trans (List.Perm.swap x y ys)
    · rw [if_neg h]

theorem pySorted_perm {α : Type} (lt : α → α → Bool) (l : List α) :
    List.Perm (pySorted lt l) l := by
  induction l with
  | nil => exact List.Perm.refl _
  | cons x xs ih =>
    exact (insertAsc_perm lt x (pySorted lt xs)).trans (ih.cons x)

theorem mem_insertAsc {α : Type} (lt : α → α → Bool) (x : α) (l : List α)
    (a : α) : a ∈ insertAsc lt x l ↔ a = x ∨ a ∈ l := by
  rw [(insertAsc_perm lt x l).mem_iff, List.mem_cons]

theorem mem_pySorted {α : Type} (lt : α → α → Bool) (l : List α) (a : α) :
    a ∈ pySorted lt l ↔ a ∈ l := (pySorted_perm lt l).mem_iff

theorem insertAsc_pairwise {α : Type} (lt : α → α → Bool)
    (hasym : ∀ a b, lt a b = true → lt b a = false)
    (hneg : ∀ a b c, lt b a = false → lt c b = false → lt c a = false)
    (x : α) (l : List α)
    (hl : l.Pairwise (fun a b => lt b a = false)) :
    (insertAsc lt x l).Pairwise (fun a b => lt b a = false) := by
  induction l with
  | nil => simp [insertAsc]
  | cons y ys ih =>
    rcases List.pairwise_cons.mp hl with ⟨hy, hys⟩
    unfold insertAsc
    by_cases h : lt y x = true
    · rw [if_pos h]
      refine List.pairwise_cons.mpr ⟨?_, ih hys⟩
      intro z hz
      rcases (mem_insertAsc lt x ys z).mp hz with rfl | hz'
      · exact hasym y z h
      · exact hy z hz'
    · rw [if_neg h]
      have h' : lt y x = false := by simpa using h
      refine List.pairwise_cons.mpr ⟨?_, hl⟩
      intro z hz
      rcases List.mem_cons.mp hz with rfl | hz'
      · exact h'
      · exact hneg x y z h' (hy z hz')

theorem pySorted_pairwise {α : Type} (lt : α → α → Bool)
    (hasym : ∀ a b, lt a b = true → lt b a = false)
    (hneg : ∀ a b c, lt b a = false → lt c b = false → lt c a = false)
    (l : List α) :
    (pySorted lt l).Pairwise (fun a b => lt b a = false) := by
  induction l with
  | nil => simp [pySorted]
  | cons x xs ih => exact insertAsc_pairwise lt hasym hneg x (pySorted lt xs) ih

theorem pySorted_head_least {α : Type} (lt : α → α → Bool)
    (hasym : ∀ a b, lt a b = true → lt b a = false)
    (hneg : ∀ a b c, lt b a = false → lt c b = false → lt c a = false)
    (hirr : ∀ a, lt a a = false) (l : List α) (hne : l ≠ []) :
    ∃ h t, pySorted lt l = h :: t ∧ h ∈ l ∧ ∀ x ∈ l, lt x h = false := by
  cases hs : pySorted lt l with
  | nil =>
    exact absurd (((pySorted_perm lt l).symm.trans (by rw [hs])).eq_nil) hne
  | cons h t =>
    refine ⟨h, t, rfl, ?_, ?_⟩
    · exact (mem_pySorted lt l h).mp (by rw [hs]; exact List.mem_cons_self h t)
    · intro x hx
      have hx' : x ∈ h :: t := by
        rw [← hs]; exact (mem_pySorted lt l x).mpr hx
      rcases List.mem_cons.mp hx' with rfl | hxt
      · exact hirr x
      · have hp := pySorted_pairwise lt hasym hneg l
        rw [hs] at hp
        exact (List.pairwise_cons.mp hp).1 x hxt

theorem pyMinInt_mem (a : Int) (l : List Int) : pyMinInt a l ∈ a :: l := by
  induction l generalizing a with
  | nil => simp [pyMinInt]
  | cons y ys ih =>
    have h : pyMinInt a (y :: ys) = pyMinInt (min a y) ys := rfl
    rw [h]
    rcases List.mem_cons.mp (ih (min a y)) with hm | hm
    · rw [hm]
      rcases min_choice a y with hc | hc <;> rw [hc] <;> simp
    · simp [hm]

theorem pyMinInt_le (a : Int) (l : List Int) : ∀ x ∈ a :: l, pyMinInt a l ≤ x := by
  induction l generalizing a with
  | nil =>
    intro x hx
    rcases List.mem_cons.mp hx with rfl | h
    · simp [pyMinInt]
    · cases h
  | cons y ys ih =>
    intro x hx
    have hle : pyMinInt a (y :: ys) = pyMinInt (min a y) ys := rfl
    rw [hle]
    rcases List.mem_cons.mp hx with heq | hx'
    · rw [heq]
      exact le_trans (ih (min a y) (min a y) (List.mem_cons_self _ _))
        (min_le_left a y)
    · rcases List.mem_cons.mp hx' with heq | hx''
      · rw [heq]
        exact le_trans (ih (min a y) (min a y) (List.mem_cons_self _ _))
          (min_le_right a y)
      · exact ih (min a y) x (List.mem_cons_of_mem _ hx'')

theorem intLt_asym : ∀ a b : Int, intLt a b = true → intLt b a = false := by
  intro a b h; simp [intLt] at h ⊢; omega

theorem intLt_neg_trans :
    ∀ a b c : Int, intLt b a = false → intLt c b = false → intLt c a = false := by
  intro a b c h1 h2; simp [intLt] at h1 h2 ⊢; omega

theorem intLt_irrefl : ∀ a : Int, intLt a a = false := by
  intro a; simp [intLt]

/-- The head of Python's ascending sort of a nonempty integer list is
its minimum. -/
theorem pySorted_intLt_head (n : Int) (rest : List Int) :
    ∃ t, pySorted intLt (n :: rest) = pyMinInt n rest :: t := by
  obtain ⟨h, t, heq, hmem, hleast⟩ :=
    pySorted_head_least intLt intLt_asym intLt_neg_trans intLt_irrefl
      (n :: rest) (by simp)
  have h1 : pyMinInt n rest ≤ h := pyMinInt_le n rest h hmem
  have h2 : ¬(pyMinInt n rest < h) := by
    have := hleast (pyMinInt n rest) (pyMinInt_mem n rest)
    simp [intLt] at this; omega
  have : h = pyMinInt n rest := by omega
  exact ⟨t, by rw [heq, this]⟩

theorem dedupGo_subset (l : List Doc) :
    ∀ seen d, d ∈ dedupGo seen l → d ∈ l := by
  induction l with
  | nil => intro seen d hd; cases hd
  | cons x xs ih =>
    intro seen d hd
    unfold dedupGo at hd
    by_cases hx : keySeen (routerKey x) seen = true
    · rw [if_pos hx] at hd
      exact List.mem_cons_of_mem x (ih seen d hd)
    · rw [if_neg hx] at hd
      rcases List.mem_cons.mp hd with rfl | hd'
      · exact List.mem_cons_self d xs
      · exact List.mem_cons_of_mem x (ih _ d hd')

theorem dedupGo_exists_key (l : List Doc) :
    ∀ seen d, d ∈ l → keySeen (routerKey d) seen = false →
      ∃ e, e ∈ dedupGo seen l ∧ routerKey e = routerKey d := by
  induction l with
  | nil => intro seen d hd; cases hd
  | cons x xs ih =>
    intro seen d hd hns
    unfold dedupGo
    by_cases hx : keySeen (routerKey x) seen = true
    · rw [if_pos hx]
      rcases List.mem_cons.mp hd with rfl | hd'
      · rw [hns] at hx; cases hx
      · exact ih seen d hd' hns
    · rw [if_neg hx]
      by_cases hkey : routerKey x = routerKey d
      · exact ⟨x, List.mem_cons_self x _, hkey⟩
      · rcases List.mem_cons.mp hd with rfl | hd'
        · exact absurd rfl hkey
        · have hns' : keySeen (routerKey d) (routerKey x :: seen) = false := by
            simp only [keySeen, List.any_cons, Bool.or_eq_false_iff]
            exact ⟨by simpa using hkey, by simpa [keySeen] using hns⟩
          obtain ⟨e, he, hk⟩ := ih (routerKey x :: seen) d hd' hns'
          exact ⟨e, List.mem_cons_of_mem x he, hk⟩

theorem deduplicateDocuments_subset (l : List Doc) (d : Doc)
    (hd : d ∈ deduplicateDocuments l) : d ∈ l :=
  dedupGo_subset l [] d hd

theorem deduplicateDocuments_exists_key (l : List Doc) (d : Doc)
    (hd : d ∈ l) :
    ∃ e, e ∈ deduplicateDocuments l ∧ routerKey e = routerKey d :=
  dedupGo_exists_key l [] d hd (by simp [keySeen])

theorem deduplicateDocuments_cons (d : Doc) (ds : List Doc) :
    deduplicateDocuments (d :: ds) = d :: dedupGo [routerKey d] ds := by
  have h : keySeen (routerKey d) [] = false := rfl
  show (if keySeen (routerKey d) [] = true then dedupGo [] ds
        else d :: dedupGo (routerKey d :: []) ds) = d :: dedupGo [routerKey d] ds
  rw [h]
  simp

theorem take_head_of_pos {α : Type} (l : List α) (k : Nat) (hk : 1 ≤ k) :
    (l.take k).head? = l.head? := by
  cases l with
  | nil => simp
  | cons x xs =>
    cases k with
    | zero => omega
    | succ n => simp

/-! ## `ExactRetriever.retrieve` membership lemmas -/

/-- Every document `ExactRetriever.retrieve` returns comes from the
scanned store. -/
theorem exactRetrieve_mem_store (store : List Doc) (a : QueryAnalysis)
    (k : Nat) (d : Doc) (hd : d ∈ exactRetrieve store a k) : d ∈ store := by
  unfold exactRetrieve at hd
  by_cases hf : buildMetadataFilter a = []
  · rw [if_pos hf] at hd; cases hd
  · rw [if_neg hf] at hd
    have h1 := List.take_subset _ _ hd
    unfold sortBySpecificity at h1
    have h2 := (pySorted_perm (docLt a) _).mem_iff.mp h1
    unfold filterDocuments at h2
    exact (List.mem_filter.mp h2).1

/-- The metadata filter built from the article-lookup probe the
comparison handler constructs is the single pair `("article", c)`. -/
theorem buildFilter_article_probe (q c : String)
    (hc : pyTruthy (some c) = true) :
    buildMetadataFilter
      { query_type := .ARTICLE_LOOKUP, original_query := q,
        article := some c } = [("article", c)] := by
  simp [buildMetadataFilter, pyTruthy, pyStr] at hc ⊢
  simp [hc]

/-- Every document the article-lookup probe retrieves belongs to the
store and carries the requested article tag. -/
theorem exactRetrieve_article_probe_mem (store : List Doc) (q c : String)
    (k : Nat) (hc : pyTruthy (some c) = true) (d : Doc)
    (hd : d ∈ exactRetrieve store
      { query_type := .ARTICLE_LOOKUP, original_query := q,
        article := some c } k) :
    d ∈ store ∧ pyStr (d.get "article") = c := by
  unfold exactRetrieve at hd
  rw [buildFilter_article_probe q c hc, if_neg (by simp)] at hd
  have h1 := List.take_subset _ _ hd
  unfold sortBySpecificity at h1
  have h2 := (pySorted_perm _ _).mem_iff.mp h1
  unfold filterDocuments at h2
  have h3 := List.mem_filter.mp h2
  refine ⟨h3.1, ?_⟩
  have h4 := h3.2
  simp only [List.all_cons, List.all_nil, Bool.and_true, beq_iff_eq] at h4
  exact h4

/-- If some stored document carries the requested article tag, the
article-lookup probe at `k = 2` returns at least one document. -/
theorem exactRetrieve_article_probe_exists (store : List Doc) (q c : String)
    (hc : pyTruthy (some c) = true) (d0 : Doc) (hd0 : d0 ∈ store)
    (ha : pyStr (d0.get "article") = c) :
    ∃ d, d ∈ exactRetrieve store
      { query_type := .ARTICLE_LOOKUP, original_query := q,
        article := some c } 2 ∧ pyStr (d.get "article") = c := by
  have hmem : d0 ∈ filterDocuments store [("article", c)] := by
    unfold filterDocuments
    exact List.mem_filter.mpr ⟨hd0, by simp [ha]⟩
  have hsorted : d0 ∈ sortBySpecificity (filterDocuments store [("article", c)])
      { query_type := .ARTICLE_LOOKUP, original_query := q,
        article := some c } := by
    unfold sortBySpecificity
    exact (pySorted_perm _ _).mem_iff.mpr hmem
  cases hl : sortBySpecificity (filterDocuments store [("article", c)])
      { query_type := .ARTICLE_LOOKUP, original_query := q,
        article := some c } with
  | nil => rw [hl] at hsorted; cases hsorted
  | cons x xs =>
    refine ⟨x, ?_, ?_⟩
    · unfold exactRetrieve
      rw [buildFilter_article_probe q c hc, if_neg (by simp), hl]
      simp
    · have hx : x ∈ exactRetrieve store
          { query_type := .ARTICLE_LOOKUP, original_query := q,
            article := some c } 2 := by
        unfold exactRetrieve
        rw [buildFilter_article_probe q c hc, if_neg (by simp), hl]
        simp
      exact (exactRetrieve_article_probe_mem store q c 2 hc x hx).2

/-- C5 (counterexample): the spec's end-to-end query
`"difference between Article 6 and Article 7"` is not classified
`COMPARISON` — the bare-article pattern matches `"Article 6"` first, so
the analyzer returns `CONCEPTUAL` (with article `"6"`) and the
comparison backfill never runs for it. -/
theorem c5_comparison_classification_counterexample :
    (analyze "difference between Article 6 and Article 7").query_type =
      QueryType.CONCEPTUAL ∧
    (analyze "difference between Article 6 and Article 7").query_type ≠
      QueryType.COMPARISON ∧
    (analyze "difference between Article 6 and Article 7").article =
      some "6" := by
  refine ⟨rfl, by decide, rfl⟩

/-- C5 (amended): for an analysis that *is* `COMPARISON` with at least
two extracted article numbers, each of the first two articles missing
from the semantic results is backfilled through the Exact Retriever
before deduplication and truncation to `k`; whenever the deduplicated
candidate list fits into `k` (and chunk ids identify chunks), the final
result contains a chunk tagged with each backfilled article. -/
theorem c5_comparison_backfill_amended
    (env : Env) (q : String) (a : QueryAnalysis) (k : Nat)
    (c1 c2 : String) (restc : List String)
    (hext : a.extracted_concepts = c1 :: c2 :: restc)
    (hc1 : pyTruthy (some c1) = true) (hc2 : pyTruthy (some c2) = true)
    (hmiss1 : (env.semantic q (k * 2)).any
      (fun d => d.get "article" == some c1) = false)
    (hmiss2 : (env.semantic q (k * 2)).any
      (fun d => d.get "article" == some c2) = false)
    (hstore1 : ∃ d0, d0 ∈ env.exactDocs ∧ pyStr (d0.get "article") = c1)
    (hstore2 : ∃ d0, d0 ∈ env.exactDocs ∧ pyStr (d0.get "article") = c2)
    (hdisj : ∀ e ∈ env.semantic q (k * 2), ∀ dd ∈ env.exactDocs,
      routerKey e ≠ routerKey dd)
    (hkeyart : ∀ d ∈ env.exactDocs, ∀ e ∈ env.exactDocs,
      routerKey d = routerKey e →
        pyStr (d.get "article") = pyStr (e.get "article"))
    (hk : (deduplicateDocuments (comparisonCandidates env q a k)).length ≤ k) :
    (∃ d, d ∈ handleComparison env q a k ∧ pyStr (d.get "article") = c1) ∧
    (∃ d, d ∈ handleComparison env q a k ∧ pyStr (d.get "article") = c2) := by
  have hres : handleComparison env q a k =
      deduplicateDocuments (comparisonCandidates env q a k) := by
    unfold handleComparison
    exact List.take_of_length_le hk
  have hcands : comparisonCandidates env q a k =
      (env.semantic q (k * 2) ++
        exactRetrieve env.exactDocs
          { query_type := .ARTICLE_LOOKUP, original_query := q,
            article := some c1 } 2) ++
        exactRetrieve env.exactDocs
          { query_type := .ARTICLE_LOOKUP, original_query := q,
            article := some c2 } 2 := by
    unfold comparisonCandidates
    rw [hext]
    simp only [hmiss1, hmiss2, Bool.false_eq_true, if_false]
  constructor
  · obtain ⟨d0, hd0, hart0⟩ := hstore1
    obtain ⟨d1, hd1, hart1⟩ :=
      exactRetrieve_article_probe_exists env.exactDocs q c1 hc1 d0 hd0 hart0
    have hd1c : d1 ∈ comparisonCandidates env q a k := by
      rw [hcands]
      exact List.mem_append_left _ (List.mem_append_right _ hd1)
    obtain ⟨e, he, hkey⟩ :=
      deduplicateDocuments_exists_key _ d1 hd1c
    have hec := deduplicateDocuments_subset _ e he
    rw [hcands] at hec
    have hd1store :=
      (exactRetrieve_article_probe_mem env.exactDocs q c1 2 hc1 d1 hd1).1
    rcases List.mem_append.mp hec with hec1 | hec2
    · rcases List.mem_append.mp hec1 with hsem | hb1
      · exact absurd hkey (hdisj e hsem d1 hd1store)
      · refine ⟨e, ?_, ?_⟩
        · rw [hres]; exact he
        · exact (exactRetrieve_article_probe_mem env.exactDocs q c1 2 hc1
            e hb1).2
    · have hestore :=
        (exactRetrieve_article_probe_mem env.exactDocs q c2 2 hc2 e hec2).1
      refine ⟨e, ?_, ?_⟩
      · rw [hres]; exact he
      · rw [hkeyart e hestore d1 hd1store hkey]
        exact hart1
  · obtain ⟨d0, hd0, hart0⟩ := hstore2
    obtain ⟨d1, hd1, hart1⟩ :=
      exactRetrieve_article_probe_exists env.exactDocs q c2 hc2 d0 hd0 hart0
    have hd1c : d1 ∈ comparisonCandidates env q a k := by
      rw [hcands]
      exact List.mem_append_right _ hd1
    obtain ⟨e, he, hkey⟩ :=
      deduplicateDocuments_exists_key _ d1 hd1c
    have hec := deduplicateDocuments_subset _ e he
    rw [hcands] at hec
    have hd1store :=
      (exactRetrieve_article_probe_mem env.exactDocs q c2 2 hc2 d1 hd1).1
    rcases List.mem_append.mp hec with hec1 | hec2
    · rcases List.mem_append.mp hec1 with hsem | hb1
      · exact absurd hkey (hdisj e hsem d1 hd1store)
      · have hestore :=
          (exactRetrieve_article_probe_mem env.exactDocs q c1 2 hc1 e hb1).1
        refine ⟨e, ?_, ?_⟩
        · rw [hres]; exact he
        · rw [hkeyart e hestore d1 hd1store hkey]
          exact hart1
    · refine ⟨e, ?_, ?_⟩
      · rw [hres]; exact he
      · exact (exactRetrieve_article_probe_mem env.exactDocs q c2 2 hc2
          e hec2).2

/-- C5 (witness): the amended theorem on a concrete two-article corpus
with empty semantic results. -/
theorem c5_comparison_backfill_amended_witness :
    (∃ d, d ∈ handleComparison c5env
        "difference between Article 6. and Article 7." c5a 3 ∧
      pyStr (d.get "article") = "6") ∧
    (∃ d, d ∈ handleComparison c5env
        "difference between Article 6. and Article 7." c5a 3 ∧
      pyStr (d.get "article") = "7") :=
  c5_comparison_backfill_amended c5env
    "difference between Article 6. and Article 7." c5a 3 "6" "7" []
    rfl rfl rfl rfl rfl
    ⟨c5doc6, by decide⟩ ⟨c5doc7, by decide⟩
    (by intro e he; cases he)
    (by decide)
    (by decide)

/-! ## Specificity-sort comparison lemmas (for C3) -/

theorem keyLt_iff (p1 p2 q1 q2 : Int) :
    keyLt (p1, p2) (q1, q2) = true ↔ (p1 < q1 ∨ (p1 = q1 ∧ p2 < q2)) := by
  unfold keyLt
  split_ifs with h1 h2 <;> simp_all

theorem keyLt_false_iff (p1 p2 q1 q2 : Int) :
    keyLt (p1, p2) (q1, q2) = false ↔
      ¬(p1 < q1 ∨ (p1 = q1 ∧ p2 < q2)) := by
  rw [← keyLt_iff, Bool.not_eq_true]

theorem docLt_asym (a : QueryAnalysis) :
    ∀ d1 d2, docLt a d1 d2 = true → docLt a d2 d1 = false := by
  intro d1 d2 h
  unfold docLt sortKey at h ⊢
  rw [keyLt_iff] at h
  rw [keyLt_false_iff]
  omega

theorem docLt_neg_trans (a : QueryAnalysis) :
    ∀ d1 d2 d3, docLt a d2 d1 = false → docLt a d3 d2 = false →
      docLt a d3 d1 = false := by
  intro d1 d2 d3 h1 h2
  unfold docLt sortKey at h1 h2 ⊢
  rw [keyLt_false_iff] at h1 h2 ⊢
  omega

theorem spec_ge_100_of_point (d : Doc)
    (h : pyTruthy (d.get "point") = true) : 100 ≤ specificityScore d := by
  unfold specificityScore
  rw [h]
  split_ifs <;> first | omega | simp_all

theorem spec_le_12_of_no_point (d : Doc)
    (h : pyTruthy (d.get "point") = false) : specificityScore d ≤ 12 := by
  unfold specificityScore
  rw [h]
  split_ifs <;> first | omega | simp_all

theorem spec_ge_10_of_subsection (d : Doc)
    (hs : pyTruthy (d.get "subsection") = true) : 10 ≤ specificityScore d := by
  unfold specificityScore
  rw [hs]
  split_ifs <;> first | omega | simp_all

theorem spec_le_2_of_article_only (d : Doc)
    (hp : pyTruthy (d.get "point") = false)
    (hs : pyTruthy (d.get "subsection") = false) : specificityScore d ≤ 2 := by
  unfold specificityScore
  rw [hp, hs]
  split_ifs <;> first | omega | simp_all

theorem docLt_of_spec_lt (a : QueryAnalysis) (d1 d2 : Doc)
    (hlm : levelMatchScore a d1 = levelMatchScore a d2)
    (hspec : specificityScore d2 < specificityScore d1) :
    docLt a d1 d2 = true := by
  unfold docLt sortKey
  rw [keyLt_iff]
  omega

/-- C3: the exact retriever's specificity sort (i) permutes its input,
(ii) is ascending for the `custom_sort` key (no later document sorts
strictly before an earlier one), (iii) ranks any point-tagged chunk
before any chunk without a point tag, (iv) ranks a subsection-tagged
chunk (without point) before a chunk carrying neither point nor
subsection, both given equal level-match, and (v) puts a chunk whose
`level` equals the query's most specific requested level ahead of any
non-matching chunk regardless of specificity scores. -/
theorem c3_specificity_ranking :
    (∀ (a : QueryAnalysis) (docs : List Doc),
      List.Perm (sortBySpecificity docs a) docs) ∧
    (∀ (a : QueryAnalysis) (docs : List Doc),
      (sortBySpecificity docs a).Pairwise
        (fun d1 d2 => docLt a d2 d1 = false)) ∧
    (∀ (a : QueryAnalysis) (d1 d2 : Doc),
      levelMatchScore a d1 = levelMatchScore a d2 →
      pyTruthy (d1.get "point") = true → pyTruthy (d2.get "point") = false →
      docLt a d1 d2 = true) ∧
    (∀ (a : QueryAnalysis) (d1 d2 : Doc),
      levelMatchScore a d1 = levelMatchScore a d2 →
      pyTruthy (d1.get "point") = false →
      pyTruthy (d2.get "point") = false →
      pyTruthy (d1.get "subsection") = true →
      pyTruthy (d2.get "subsection") = false →
      docLt a d1 d2 = true) ∧
    (∀ (a : QueryAnalysis) (d1 d2 : Doc),
      levelMatchScore a d1 = 1 → levelMatchScore a d2 = 0 →
      docLt a d1 d2 = true) := by
  refine ⟨?_, ?_, ?_, ?_, ?_⟩
  · intro a docs
    exact pySorted_perm (docLt a) docs
  · intro a docs
    exact pySorted_pairwise (docLt a) (docLt_asym a) (docLt_neg_trans a) docs
  · intro a d1 d2 hlm hp1 hp2
    exact docLt_of_spec_lt a d1 d2 hlm
      (lt_of_le_of_lt (spec_le_12_of_no_point d2 hp2)
        (lt_of_lt_of_le (by omega) (spec_ge_100_of_point d1 hp1)))
  · intro a d1 d2 hlm hp1 hp2 hs1 hs2
    exact docLt_of_spec_lt a d1 d2 hlm
      (lt_of_le_of_lt (spec_le_2_of_article_only d2 hp2 hs2)
        (lt_of_lt_of_le (by omega) (spec_ge_10_of_subsection d1 hs1)))
  · intro a d1 d2 h1 h2
    unfold docLt sortKey
    rw [keyLt_iff, h1, h2]
    omega

/-- C3 (witness): on a concrete article query, the point chunk sorts
before the subsection chunk, both sort after the level-matching
article chunk, and the sort permutes its input. -/
theorem c3_specificity_ranking_witness :
    List.Perm (sortBySpecificity [c3aDoc, c3s, c3p] c3q) [c3aDoc, c3s, c3p] ∧
    docLt c3q c3p c3s = true ∧
    docLt c3q c3s c3aDoc = false ∧
    docLt c3q c3aDoc c3p = true := by
  refine ⟨c3_specificity_ranking.1 c3q [c3aDoc, c3s, c3p], ?_, ?_, ?_⟩
  · exact c3_specificity_ranking.2.2.1 c3q c3p c3s (by decide) (by decide)
      (by decide)
  · exact docLt_asym c3q c3aDoc c3s
      (c3_specificity_ranking.2.2.2.2 c3q c3aDoc c3s (by decide) (by decide))
  · exact c3_specificity_ranking.2.2.2.2 c3q c3aDoc c3p (by decide)
      (by decide)

/-! ## `retrieve_with_context` dedup lemmas (for C8) -/

theorem dedupCtxGo_cons_none (seen : List String) (x : Doc) (xs : List Doc)
    (hx : x.get "chunk_id" = none) :
    dedupCtxGo seen (x :: xs) = dedupCtxGo seen xs := by
  simp only [dedupCtxGo, hx]

theorem dedupCtxGo_cons_empty (seen : List String) (x : Doc)
    (xs : List Doc) (cid : String) (hx : x.get "chunk_id" = some cid)
    (hne : ¬cid ≠ "") :
    dedupCtxGo seen (x :: xs) = dedupCtxGo seen xs := by
  simp only [dedupCtxGo, hx]
  rw [if_neg hne]

theorem dedupCtxGo_cons_seen (seen : List String) (x : Doc)
    (xs : List Doc) (cid : String) (hx : x.get "chunk_id" = some cid)
    (hne : cid ≠ "") (hs : cid ∈ seen) :
    dedupCtxGo seen (x :: xs) = dedupCtxGo seen xs := by
  simp only [dedupCtxGo, hx]
  rw [if_pos hne, if_pos hs]

theorem dedupCtxGo_cons_keep (seen : List String) (x : Doc)
    (xs : List Doc) (cid : String) (hx : x.get "chunk_id" = some cid)
    (hne : cid ≠ "") (hs : cid ∉ seen) :
    dedupCtxGo seen (x :: xs) = x :: dedupCtxGo (cid :: seen) xs := by
  simp only [dedupCtxGo, hx]
  rw [if_pos hne, if_neg hs]

theorem dedupCtxGo_subset (l : List Doc) :
    ∀ seen d, d ∈ dedupCtxGo seen l → d ∈ l := by
  induction l with
  | nil => intro seen d hd; cases hd
  | cons x xs ih =>
    intro seen d hd
    rcases hx : x.get "chunk_id" with _ | cid
    · rw [dedupCtxGo_cons_none seen x xs hx] at hd
      exact List.mem_cons_of_mem x (ih seen d hd)
    · by_cases hne : cid ≠ ""
      · by_cases hseen : cid ∈ seen
        · rw [dedupCtxGo_cons_seen seen x xs cid hx hne hseen] at hd
          exact List.mem_cons_of_mem x (ih seen d hd)
        · rw [dedupCtxGo_cons_keep seen x xs cid hx hne hseen] at hd
          rcases List.mem_cons.mp hd with rfl | hd'
          · exact List.mem_cons_self d xs
          · exact List.mem_cons_of_mem x (ih _ d hd')
      · rw [dedupCtxGo_cons_empty seen x xs cid hx hne] at hd
        exact List.mem_cons_of_mem x (ih seen d hd)

theorem dedupCtxGo_invariant (l : List Doc) :
    ∀ seen,
      (∀ d ∈ dedupCtxGo seen l,
        ∃ cid, d.get "chunk_id" = some cid ∧ cid ≠ "" ∧ cid ∉ seen) ∧
      (dedupCtxGo seen l).Pairwise
        (fun d e => d.get "chunk_id" ≠ e.get "chunk_id") := by
  induction l with
  | nil =>
    intro seen
    exact ⟨fun d hd => absurd hd (by simp [dedupCtxGo]), by
      simp [dedupCtxGo]⟩
  | cons x xs ih =>
    intro seen
    rcases hx : x.get "chunk_id" with _ | cid
    · rw [dedupCtxGo_cons_none seen x xs hx]
      exact ih seen
    · by_cases hne : cid ≠ ""
      · by_cases hseen : cid ∈ seen
        · rw [dedupCtxGo_cons_seen seen x xs cid hx hne hseen]
          exact ih seen
        · rw [dedupCtxGo_cons_keep seen x xs cid hx hne hseen]
          obtain ⟨ihmem, ihpw⟩ := ih (cid :: seen)
          constructor
          · intro d hd
            rcases List.mem_cons.mp hd with rfl | hd'
            · exact ⟨cid, hx, hne, hseen⟩
            · obtain ⟨cid2, hcid2, hne2, hns2⟩ := ihmem d hd'
              exact ⟨cid2, hcid2, hne2,
                fun hmem => hns2 (List.mem_cons_of_mem cid hmem)⟩
          · refine List.pairwise_cons.mpr ⟨?_, ihpw⟩
            intro d hd
            obtain ⟨cid2, hcid2, _, hns2⟩ := ihmem d hd
            rw [hx, hcid2]
            intro hcon
            injection hcon with hcon
            exact hns2 (hcon ▸ List.mem_cons_self cid seen)
      · rw [dedupCtxGo_cons_empty seen x xs cid hx hne]
        exact ih seen

theorem dedupByChunkId_cons (d : Doc) (ds : List Doc) (cid : String)
    (hcid : d.get "chunk_id" = some cid) (hne : cid ≠ "") :
    dedupByChunkId (d :: ds) = d :: dedupCtxGo [cid] ds := by
  unfold dedupByChunkId
  exact dedupCtxGo_cons_keep [] d ds cid hcid hne (by simp)

/-- C8 (counterexample): for a recital analysis and `k = 0`, the single
exact match is returned untruncated, so the result has one chunk — the
claim's "at most k chunks" fails at `k = 0`. -/
theorem c8_retrieve_with_context_counterexample :
    retrieveWithContext [c8rdoc] c8ra 0 = [c8rdoc] ∧
    ¬((retrieveWithContext [c8rdoc] c8ra 0).length ≤ 0) := by
  refine ⟨rfl, by decide⟩

/-- C8 (amended): `retrieve_with_context` (i) answers a recital
analysis with the single best exact match, skipping parent expansion,
deduplication and truncation (so a recital result may hold one chunk
even when `k = 0`); for non-recital analyses it (ii) returns the best
exact match followed by the parent-subsection probe when both a point
and a subsection were requested and by the parent-article probe when a
subsection was requested, deduplicated by `chunk_id` keeping the first
occurrence (documents without a truthy `chunk_id` are dropped) and
truncated to `k`; hence (iii) at most `k` chunks, (iv) pairwise
distinct chunk ids, (v) no parent context when no subsection was
requested, and (vi) the best exact match leads the result when `k ≥ 1`
and it carries a chunk id. -/
theorem c8_retrieve_with_context_amended :
    (∀ (store : List Doc) (a : QueryAnalysis) (k : Nat),
      pyTruthy a.recital = true →
      retrieveWithContext store a k = exactRetrieve store a 1) ∧
    (∀ (store : List Doc) (a : QueryAnalysis) (k : Nat),
      pyTruthy a.recital = false →
      retrieveWithContext store a k =
        (dedupByChunkId (exactRetrieve store a 1 ++
          (if pyTruthy a.point && pyTruthy a.subsection then
            exactRetrieve store (parentSubsectionAnalysis a) 1 else []) ++
          (if pyTruthy a.subsection then
            exactRetrieve store (parentArticleAnalysis a) 1 else []))).take
          k) ∧
    (∀ (store : List Doc) (a : QueryAnalysis) (k : Nat),
      pyTruthy a.recital = false →
      (retrieveWithContext store a k).length ≤ k) ∧
    (∀ (store : List Doc) (a : QueryAnalysis) (k : Nat),
      pyTruthy a.recital = false →
      (retrieveWithContext store a k).Pairwise
        (fun d e => d.get "chunk_id" ≠ e.get "chunk_id")) ∧
    (∀ (store : List Doc) (a : QueryAnalysis) (k : Nat),
      pyTruthy a.recital = false → pyTruthy a.subsection = false →
      ∀ d ∈ retrieveWithContext store a k, d ∈ exactRetrieve store a 1) ∧
    (∀ (store : List Doc) (a : QueryAnalysis) (k : Nat) (d0 : Doc)
      (ds0 : List Doc) (cid : String),
      pyTruthy a.recital = false → 1 ≤ k →
      exactRetrieve store a 1 = d0 :: ds0 →
      d0.get "chunk_id" = some cid → cid ≠ "" →
      (retrieveWithContext store a k).head? = some d0) := by
  have hbody : ∀ (store : List Doc) (a : QueryAnalysis) (k : Nat),
      pyTruthy a.recital = false →
      retrieveWithContext store a k =
        (dedupByChunkId (exactRetrieve store a 1 ++
          (if pyTruthy a.point && pyTruthy a.subsection then
            exactRetrieve store (parentSubsectionAnalysis a) 1 else []) ++
          (if pyTruthy a.subsection then
            exactRetrieve store (parentArticleAnalysis a) 1 else []))).take
          k := by
    intro store a k h
    simp only [retrieveWithContext, h, Bool.false_eq_true, if_false]
  refine ⟨?_, hbody, ?_, ?_, ?_, ?_⟩
  · intro store a k h
    simp only [retrieveWithContext, h, if_true]
  · intro store a k h
    rw [hbody store a k h]
    exact List.length_take_le k _
  · intro store a k h
    rw [hbody store a k h]
    exact ((dedupCtxGo_invariant _ []).2).sublist (List.take_sublist k _)
  · intro store a k h hsub d hd
    rw [hbody store a k h] at hd
    rw [hsub] at hd
    simp only [Bool.and_false, Bool.false_eq_true, if_false,
      List.append_nil] at hd
    exact dedupCtxGo_subset _ [] d (List.take_subset _ _ hd)
  · intro store a k d0 ds0 cid h hk hex hcid hne
    rw [hbody store a k h, hex]
    rw [List.cons_append, List.cons_append,
      dedupByChunkId_cons d0 _ cid hcid hne, take_head_of_pos _ k hk]
    rfl

/-- C8 (witness): the amended theorem on a concrete point query with
its subsection and article parents in the store, and on a concrete
recital query. -/
theorem c8_retrieve_with_context_amended_witness :
    retrieveWithContext [c8rdoc] c8ra 5 = exactRetrieve [c8rdoc] c8ra 1 ∧
    (retrieveWithContext c8store c8a 3).head? = some c8dP ∧
    (retrieveWithContext c8store c8a 3).length ≤ 3 ∧
    retrieveWithContext c8store c8a 3 = [c8dP, c8dS, c8dA] :=
  ⟨c8_retrieve_with_context_amended.1 [c8rdoc] c8ra 5 (by decide),
   c8_retrieve_with_context_amended.2.2.2.2.2 c8store c8a 3 c8dP []
     "article_15_1_a" (by decide) (by decide) (by decide) (by decide)
     (by decide),
   c8_retrieve_with_context_amended.2.2.1 c8store c8a 3 (by decide),
   by decide⟩

/-! ## Group-lookup lemmas (for C6) -/

/-- Every document the shared group-lookup tail returns comes from the
filtered group or from the semantic fallback. -/
theorem lookupFromGroup_sound (fallback group : List Doc) (k : Nat) :
    ∀ d ∈ lookupFromGroup fallback group k, d ∈ group ∨ d ∈ fallback := by
  intro d hd
  unfold lookupFromGroup at hd
  by_cases hg : group = []
  · rw [if_pos hg] at hd
    exact Or.inr hd
  · rw [if_neg hg] at hd
    cases hnums : articleNumsOf group with
    | nil =>
      simp only [hnums] at hd
      exact Or.inl (List.take_subset _ _ hd)
    | cons n rest =>
      simp only [hnums] at hd
      left
      have h2 := deduplicateDocuments_subset _ _ (List.take_subset _ _ hd)
      rcases List.mem_append.mp h2 with hf | hc
      · unfold firstArticleDocsOf at hf
        exact (List.mem_filter.mp hf).1
      · unfold contextDocsOf at hc
        exact (List.mem_filter.mp hc).1

/-- When the group has parseable article numbers, every returned
document belongs to the group and its article tag is among the first
three entries of the ascending-sorted article-number list. -/
theorem lookupFromGroup_ctx (fallback group : List Doc) (k : Nat)
    (n : Int) (rest : List Int) (hg : group ≠ [])
    (hnums : articleNumsOf group = n :: rest) :
    ∀ d ∈ lookupFromGroup fallback group k,
      d ∈ group ∧
      pyStr (d.get "article") ∈
        ((pySorted intLt (n :: rest)).take 3).map toString := by
  intro d hd
  unfold lookupFromGroup at hd
  rw [if_neg hg] at hd
  simp only [hnums] at hd
  have h2 := deduplicateDocuments_subset _ _ (List.take_subset _ _ hd)
  rcases List.mem_append.mp h2 with hf | hc
  · unfold firstArticleDocsOf at hf
    obtain ⟨hmem, hpred⟩ := List.mem_filter.mp hf
    refine ⟨hmem, ?_⟩
    simp only [Bool.and_eq_true, beq_iff_eq] at hpred
    rw [hpred.1]
    obtain ⟨t, ht⟩ := pySorted_intLt_head n rest
    rw [ht]
    simp
  · unfold contextDocsOf at hc
    obtain ⟨hmem, hpred⟩ := List.mem_filter.mp hc
    refine ⟨hmem, ?_⟩
    rcases ha : d.get "article" with _ | s
    · simp only [ha] at hpred
      cases hpred
    · simp only [ha] at hpred
      have hs : s ∈ ((pySorted intLt (n :: rest)).take 3).map toString := by
        simpa using hpred
      simpa [pyStr] using hs

/-- When the group has article numbers and `k ≥ 1`, the first returned
document is the first `ARTICLE`-level chunk of the lowest-numbered
article. -/
theorem lookupFromGroup_head (fallback group : List Doc) (k : Nat)
    (n : Int) (rest : List Int) (d0 : Doc) (ds0 : List Doc)
    (hg : group ≠ []) (hnums : articleNumsOf group = n :: rest)
    (hk : 1 ≤ k)
    (hfirst : firstArticleDocsOf group (toString (pyMinInt n rest)) =
      d0 :: ds0) :
    (lookupFromGroup fallback group k).head? = some d0 ∧
    pyStr (d0.get "article") = toString (pyMinInt n rest) ∧
    d0.get "level" = some "article" := by
  have hd0 : d0 ∈ group.filter (fun d =>
      pyStr (d.get "article") == toString (pyMinInt n rest) &&
      d.get "level" == some "article") := by
    show d0 ∈ firstArticleDocsOf group (toString (pyMinInt n rest))
    rw [hfirst]
    exact List.mem_cons_self d0 ds0
  have hpred := (List.mem_filter.mp hd0).2
  simp only [Bool.and_eq_true, beq_iff_eq] at hpred
  refine ⟨?_, hpred.1, hpred.2⟩
  unfold lookupFromGroup
  rw [if_neg hg]
  simp only [hnums]
  rw [take_head_of_pos _ k hk, hfirst, List.cons_append,
    deduplicateDocuments_cons]
  rfl

/-- C6 (counterexample): a section-lookup whose tag only exists in the
corpus under the alternate Roman form.  The claim requires a retry with
the alternate form (which would find the stored `"IV"` group for the
query's `"4"`); the code retries only for chapters, so the handler
falls back to semantic retrieval and the article chunk is missed. -/
theorem c6_section_no_alternate_retry_counterexample :
    getAlternateChapterFormat "4" = "IV" ∧
    c6docIV ∈ c6env.allDocs ∧
    c6docIV.get "section" = some "IV" ∧
    c6docIV.get "level" = some "article" ∧
    c6a.«section» = some "4" ∧
    handleSectionLookup c6env c6a 3 = [] ∧
    c6docIV ∉ handleSectionLookup c6env c6a 3 := by
  refine ⟨rfl, by decide, rfl, rfl, rfl, rfl, by decide⟩

/-- C6 (amended): (i) a section lookup with an empty section filter
falls back to semantic retrieval directly — there is no Roman/Arabic
retry for sections; (ii) a chapter lookup whose first filter is empty
retries with the alternate chapter format, and every result then comes
from the alternate group or the semantic fallback; (iii)/(iv) when the
(possibly retried) group has parseable article numbers, every returned
chunk belongs to the group and carries an article tag among the three
lowest entries of the sorted (possibly duplicated) article-number list
— which includes the lowest article itself, not only the next two; and
(v) for `k ≥ 1` the result starts with the first `ARTICLE`-level chunk
of the lowest-numbered article. -/
theorem c6_section_chapter_lookup_amended :
    (∀ (env : Env) (a : QueryAnalysis) (k : Nat),
      sectionDocsOf env a = [] →
      handleSectionLookup env a k = env.semantic a.original_query k) ∧
    (∀ (env : Env) (a : QueryAnalysis) (k : Nat),
      chapterPrimaryDocs env a = [] →
      ∀ d ∈ handleChapterLookup env a k,
        d ∈ chapterAltDocs env a ∨ d ∈ env.semantic a.original_query k) ∧
    (∀ (env : Env) (a : QueryAnalysis) (k : Nat) (n : Int)
      (rest : List Int),
      sectionDocsOf env a ≠ [] →
      articleNumsOf (sectionDocsOf env a) = n :: rest →
      ∀ d ∈ handleSectionLookup env a k,
        d ∈ sectionDocsOf env a ∧
        pyStr (d.get "article") ∈
          ((pySorted intLt (n :: rest)).take 3).map toString) ∧
    (∀ (env : Env) (a : QueryAnalysis) (k : Nat) (n : Int)
      (rest : List Int),
      chapterDocsOf env a ≠ [] →
      articleNumsOf (chapterDocsOf env a) = n :: rest →
      ∀ d ∈ handleChapterLookup env a k,
        d ∈ chapterDocsOf env a ∧
        pyStr (d.get "article") ∈
          ((pySorted intLt (n :: rest)).take 3).map toString) ∧
    (∀ (env : Env) (a : QueryAnalysis) (k : Nat) (n : Int)
      (rest : List Int) (d0 : Doc) (ds0 : List Doc),
      sectionDocsOf env a ≠ [] →
      articleNumsOf (sectionDocsOf env a) = n :: rest → 1 ≤ k →
      firstArticleDocsOf (sectionDocsOf env a)
        (toString (pyMinInt n rest)) = d0 :: ds0 →
      (handleSectionLookup env a k).head? = some d0 ∧
      pyStr (d0.get "article") = toString (pyMinInt n rest) ∧
      d0.get "level" = some "article") := by
  refine ⟨?_, ?_, ?_, ?_, ?_⟩
  · intro env a k h
    unfold handleSectionLookup lookupFromGroup
    rw [h, if_pos rfl]
  · intro env a k hprim d hd
    unfold handleChapterLookup at hd
    have halt : chapterDocsOf env a = chapterAltDocs env a := by
      unfold chapterDocsOf
      rw [hprim, if_pos rfl]
    rw [halt] at hd
    exact lookupFromGroup_sound _ _ k d hd
  · intro env a k n rest hg hnums d hd
    exact lookupFromGroup_ctx _ _ k n rest hg hnums d hd
  · intro env a k n rest hg hnums d hd
    exact lookupFromGroup_ctx _ _ k n rest hg hnums d hd
  · intro env a k n rest d0 ds0 hg hnums hk hfirst
    exact lookupFromGroup_head _ _ k n rest d0 ds0 hg hnums hk hfirst

/-- C6 (witness): on a concrete two-article section group the handler
leads with the lowest article's `ARTICLE`-level chunk, every result
stays in the group with an article tag among the three lowest numbers,
and on a corpus whose section tag exists only in the alternate Roman
form the handler returns the plain semantic fallback. -/
theorem c6_section_chapter_lookup_amended_witness :
    ((handleSectionLookup c6wenv c6wa 3).head? = some c6wdoc4 ∧
      pyStr (c6wdoc4.get "article") = toString (pyMinInt 4 [4, 5]) ∧
      c6wdoc4.get "level" = some "article") ∧
    (c6wdoc5 ∈ sectionDocsOf c6wenv c6wa ∧
      pyStr (c6wdoc5.get "article") ∈
        ((pySorted intLt [4, 4, 5]).take 3).map toString) ∧
    handleSectionLookup c6env c6a 3 = c6env.semantic c6a.original_query 3 :=
  ⟨c6_section_chapter_lookup_amended.2.2.2.2 c6wenv c6wa 3 4 [4, 5]
      c6wdoc4 [] (by decide) (by decide) (by decide) (by decide),
   c6_section_chapter_lookup_amended.2.2.1 c6wenv c6wa 3 4 [4, 5]
      (by decide) (by decide) c6wdoc5 (by decide),
   c6_section_chapter_lookup_amended.1 c6env c6a 3 (by decide)⟩

end RagSpec
